import Mathlib

/-!
Verification of the Khamseena language front end: a shallow embedding in
Lean 4 of the scanner (`scanner.py`), the recursive-descent parser
(`khamseena_parser.py`) and the semantic analyzer (`semantic_analyzer.py`),
together with theorems settling the specification's claims about them.

Modelling conventions:
- Python strings are Lean `String`s; the scanner walks a `List Char`
  (the unconsumed suffix of the source) together with the current
  line/column counters, which mirrors `position`/`line`/`column` of
  `Scanner` (the consumed prefix is dropped instead of indexed past).
- `TokenType` members are string constants exactly as in
  `khamseena_token.py` (note that `TokenType.NOTE` and
  `TokenType.COMMENT` are both the string "COMMENT", an aliasing the
  parser inherits).
- Loops become recursive functions; the parser's mutually recursive
  descent is given a fuel parameter (`Nat`), with fuel exhaustion a
  distinguished outcome that the sufficiency theorems rule out.
- Python exceptions become `Except` values.
-/

namespace Khamseena

/-! Token type constants from `khamseena_token.py` (class `TokenType`).
Each member is the literal string value assigned in the source. -/

namespace TokenType

def BREW : String := "MAIN"

def RECIPE : String := "FUNCTION"

def COUNT : String := "INT"

def MEASURE : String := "FLOAT"

def NOTE : String := "COMMENT"

def FLAVOR : String := "BOOLEAN"

def SWEET : String := "TRUE"

def SOUR : String := "FALSE"

def SERVE : String := "PRINT"

def POUR : String := "INPUT"

def TASTE : String := "IF"

def RETASTE : String := "ELSE"

def STIR : String := "WHILE"

def MIX : String := "FOR"

def STOP : String := "BREAK"

def SKIP : String := "CONTINUE"

def DELIVER : String := "RETURN"

def FETCH : String := "INCLUDE"

def PLUS : String := "PLUS"

def MINUS : String := "MINUS"

def MULTIPLY : String := "MULTIPLY"

def DIVIDE : String := "DIVIDE"

def MODULO : String := "MODULO"

def ASSIGN : String := "ASSIGN"

def EQUAL : String := "EQUAL"

def NOT_EQUAL : String := "NOT_EQUAL"

def GREATER : String := "GREATER"

def LESS : String := "LESS"

def GREATER_EQUAL : String := "GREATER_EQUAL"

def LESS_EQUAL : String := "LESS_EQUAL"

def AND : String := "AND"

def OR : String := "OR"

def NOT : String := "NOT"

def LPAREN : String := "LPAREN"

def RPAREN : String := "RPAREN"

def LBRACE : String := "LBRACE"

def RBRACE : String := "RBRACE"

def SEMICOLON : String := "SEMICOLON"

def COMMA : String := "COMMA"

def INTEGER : String := "INTEGER"

def FLOAT : String := "FLOAT"

def STRING : String := "STRING"

def IDENTIFIER : String := "IDENTIFIER"

def EOF : String := "EOF"

def COMMENT : String := "COMMENT"

end TokenType

/-- A token as in `khamseena_token.py` (class `Token`): type tag, literal
value, and one-based line/column of its first character. -/
structure Token where
  type : String
  value : String
  line : Nat
  column : Nat
deriving DecidableEq, Repr

/-- The `KEYWORDS` dict of `khamseena_token.py`, in declaration order. -/
def KEYWORDS : List (String × String) :=
  [("brew", TokenType.BREW), ("recipe", TokenType.RECIPE),
   ("count", TokenType.COUNT), ("measure", TokenType.MEASURE),
   ("note", TokenType.NOTE), ("flavor", TokenType.FLAVOR),
   ("sweet", TokenType.SWEET), ("sour", TokenType.SOUR),
   ("serve", TokenType.SERVE), ("pour", TokenType.POUR),
   ("taste", TokenType.TASTE), ("retaste", TokenType.RETASTE),
   ("stir", TokenType.STIR), ("mix", TokenType.MIX),
   ("stop", TokenType.STOP), ("skip", TokenType.SKIP),
   ("deliver", TokenType.DELIVER), ("fetch", TokenType.FETCH)]

/-- `KEYWORDS.get(s, default)` as used in `read_identifier`. -/
def keyword_get (s : String) : Option String :=
  (KEYWORDS.find? (fun p => p.1 = s)).map Prod.snd

/-! The scanner (`scanner.py`, class `Scanner`). -/

/-- A `LexicalError` of `scanner.py`, kept structured: the line/column the
scanner was at when `Scanner.error` ran, and the message passed to it. -/
structure LexErr where
  line : Nat
  column : Nat
  msg : String
deriving DecidableEq, Repr

/-- The string `Scanner.error` formats into the raised `LexicalError`. -/
def LexErr.render (e : LexErr) : String :=
  "Lexical Error at line " ++ toString e.line ++ ", column " ++
    toString e.column ++ ": " ++ e.msg

/-- Outcome channel for `tokenize`: a genuine `LexicalError`, or fuel
exhaustion (an artifact of the embedding, ruled out by
`tokenize_loop_sufficient`). -/
inductive LexFail where
  | fuel : LexFail
  | err (e : LexErr) : LexFail
deriving DecidableEq, Repr

/-- Python `str.isspace` restricted to the ASCII whitespace the scanner's
docstring names (plus vertical tab and form feed, which CPython also
accepts); the repository's sources are ASCII. -/
def py_isspace (c : Char) : Bool :=
  c = ' ' || c = '\t' || c = '\n' || c = '\r' || c = '\x0b' || c = '\x0c'

/-- `Scanner.skip_whitespace`: advance while the current character is
whitespace. `Scanner.advance` is inlined at the recursive positions (a
newline bumps `line` and resets `column`, anything else bumps `column`). -/
def skip_whitespace : List Char → Nat → Nat → List Char × Nat × Nat
  | [], line, col => ([], line, col)
  | ch :: rest, line, col =>
    if py_isspace ch then
      if ch = '\n' then skip_whitespace rest (line + 1) 1
      else skip_whitespace rest line (col + 1)
    else (ch :: rest, line, col)

/-- The character-collecting loop of `Scanner.skip_comment`: consume up to
(not including) the next newline, accumulating the text. Comment
characters are never newlines, so `line` is unchanged and only the column
advances. -/
def skip_comment_loop : List Char → Nat → String → String × List Char × Nat
  | [], col, text => (text, [], col)
  | ch :: rest, col, text =>
    if ch = '\n' then (text, ch :: rest, col)
    else skip_comment_loop rest (col + 1) (text.push ch)

/-- `Scanner.skip_comment`: when the current character is `#`, read the
whole comment (including the `#`) into a COMMENT token positioned at the
`#`, then skip the trailing newline if present. Returns the token (if
any) and the scanner state after it. -/
def skip_comment (chars : List Char) (line col : Nat) :
    Option Token × List Char × Nat × Nat :=
  match chars with
  | '#' :: _ =>
    let r := skip_comment_loop chars col ""
    match r.2.1 with
    | '\n' :: rest2 => (some ⟨TokenType.COMMENT, r.1, line, col⟩, rest2, line + 1, 1)
    | other => (some ⟨TokenType.COMMENT, r.1, line, col⟩, other, line, r.2.2)
  | _ => (none, chars, line, col)

/-- The digit-collecting loop shared by both halves of
`Scanner.read_number`. Digits are never newlines, so only the column
advances. -/
def read_digits : List Char → Nat → String → String × List Char × Nat
  | [], col, acc => (acc, [], col)
  | ch :: rest, col, acc =>
    if ch.isDigit then read_digits rest (col + 1) (acc.push ch)
    else (acc, ch :: rest, col)

/-- `Scanner.read_number`: digits, then optionally a decimal point
followed by at least one digit (checked by one-character lookahead before
consuming the point). Produces an INTEGER or FLOAT token positioned at
the first digit. -/
def read_number (chars : List Char) (line col : Nat) :
    Token × List Char × Nat × Nat :=
  let r1 := read_digits chars col ""
  match r1.2.1 with
  | '.' :: d :: rest1 =>
    if d.isDigit then
      let r2 := read_digits (d :: rest1) (r1.2.2 + 1) (r1.1.push '.')
      (⟨TokenType.FLOAT, r2.1, line, col⟩, r2.2.1, line, r2.2.2)
    else (⟨TokenType.INTEGER, r1.1, line, col⟩, r1.2.1, line, r1.2.2)
  | _ => (⟨TokenType.INTEGER, r1.1, line, col⟩, r1.2.1, line, r1.2.2)

/-- Identifier characters: alphanumeric or underscore
(`read_identifier`'s loop condition). -/
def is_ident_char (c : Char) : Bool :=
  c.isAlphanum || c = '_'

/-- The character-collecting loop of `Scanner.read_identifier`. -/
def read_ident_loop : List Char → Nat → String → String × List Char × Nat
  | [], col, acc => (acc, [], col)
  | ch :: rest, col, acc =>
    if is_ident_char ch then read_ident_loop rest (col + 1) (acc.push ch)
    else (acc, ch :: rest, col)

/-- `Scanner.read_identifier`: collect the identifier, then classify it
through the keyword table (`KEYWORDS.get(identifier, IDENTIFIER)`). -/
def read_identifier (chars : List Char) (line col : Nat) :
    Token × List Char × Nat × Nat :=
  let r := read_ident_loop chars col ""
  let t := match keyword_get r.1 with
    | some k => k
    | none => TokenType.IDENTIFIER
  (⟨t, r.1, line, col⟩, r.2.1, line, r.2.2)

/-- The escape table of `Scanner.read_string`: `n t r \\ "` map to their
control characters, any other escaped character is copied literally. -/
def escape_char (c : Char) : Char :=
  if c = 'n' then '\n'
  else if c = 't' then '\t'
  else if c = 'r' then '\r'
  else if c = '\\' then '\\'
  else if c = '"' then '"'
  else c

/-- The body loop of `Scanner.read_string`, entered just past the opening
quote. A raw newline or running out of input raises
"Unterminated string literal" with the scanner's line/column AT THAT
POINT (the loop never consults the opening quote's saved position for the
error). A backslash consumes the following character through
`escape_char` without the newline check, so an escaped newline continues
the string onto the next line. On the closing quote the loop stops and
the quote is consumed (column + 1). -/
def read_string_loop : List Char → Nat → Nat → String →
    Except LexErr (String × List Char × Nat × Nat)
  | [], line, col, _ => .error ⟨line, col, "Unterminated string literal"⟩
  | ch :: rest, line, col, acc =>
    if ch = '"' then .ok (acc, rest, line, col + 1)
    else if ch = '\n' then .error ⟨line, col, "Unterminated string literal"⟩
    else if ch = '\\' then
      match rest with
      | [] => .error ⟨line, col + 1, "Unterminated string literal"⟩
      | e :: rest2 =>
        if e = '\n' then read_string_loop rest2 (line + 1) 1 (acc.push (escape_char e))
        else read_string_loop rest2 line (col + 2) (acc.push (escape_char e))
    else read_string_loop rest line (col + 1) (acc.push ch)

/-- `Scanner.read_string`, called with the characters after the opening
quote and the quote's line/column: skip the quote (column + 1), run the
loop, and wrap the collected text back in quotes as the STRING token's
value, positioned at the opening quote. -/
def read_string (afterQuote : List Char) (line col : Nat) :
    Except LexErr (Token × List Char × Nat × Nat) :=
  match read_string_loop afterQuote line (col + 1) "" with
  | .error e => .error e
  | .ok (s, rest2, l2, c2) =>
    .ok (⟨TokenType.STRING, "\"" ++ s ++ "\"", line, col⟩, rest2, l2, c2)

/-- `Scanner.read_operator`: two-character operators first, then the
single-character table; `none` when the character is no operator at all. -/
def read_operator (chars : List Char) (line col : Nat) :
    Option (Token × List Char × Nat × Nat) :=
  match chars with
  | '=' :: '=' :: rest => some (⟨TokenType.EQUAL, "==", line, col⟩, rest, line, col + 2)
  | '!' :: '=' :: rest => some (⟨TokenType.NOT_EQUAL, "!=", line, col⟩, rest, line, col + 2)
  | '>' :: '=' :: rest => some (⟨TokenType.GREATER_EQUAL, ">=", line, col⟩, rest, line, col + 2)
  | '<' :: '=' :: rest => some (⟨TokenType.LESS_EQUAL, "<=", line, col⟩, rest, line, col + 2)
  | '&' :: '&' :: rest => some (⟨TokenType.AND, "&&", line, col⟩, rest, line, col + 2)
  | '|' :: '|' :: rest => some (⟨TokenType.OR, "||", line, col⟩, rest, line, col + 2)
  | '+' :: rest => some (⟨TokenType.PLUS, "+", line, col⟩, rest, line, col + 1)
  | '-' :: rest => some (⟨TokenType.MINUS, "-", line, col⟩, rest, line, col + 1)
  | '*' :: rest => some (⟨TokenType.MULTIPLY, "*", line, col⟩, rest, line, col + 1)
  | '/' :: rest => some (⟨TokenType.DIVIDE, "/", line, col⟩, rest, line, col + 1)
  | '%' :: rest => some (⟨TokenType.MODULO, "%", line, col⟩, rest, line, col + 1)
  | '=' :: rest => some (⟨TokenType.ASSIGN, "=", line, col⟩, rest, line, col + 1)
  | '>' :: rest => some (⟨TokenType.GREATER, ">", line, col⟩, rest, line, col + 1)
  | '<' :: rest => some (⟨TokenType.LESS, "<", line, col⟩, rest, line, col + 1)
  | '!' :: rest => some (⟨TokenType.NOT, "!", line, col⟩, rest, line, col + 1)
  | _ => none

/-- The delimiter table of `Scanner.tokenize`. -/
def delimiter_type (c : Char) : Option String :=
  if c = '(' then some TokenType.LPAREN
  else if c = ')' then some TokenType.RPAREN
  else if c = '{' then some TokenType.LBRACE
  else if c = '}' then some TokenType.RBRACE
  else if c = ';' then some TokenType.SEMICOLON
  else if c = ',' then some TokenType.COMMA
  else none

/-- The main loop of `Scanner.tokenize`, with fuel. Each iteration
mirrors one trip around the Python `while` loop: skip whitespace, capture
a comment, read an identifier/number/string/operator/delimiter, or fail on
an invalid character. At end of input the EOF token is appended at the
final line/column. -/
def tokenize_loop : Nat → List Char → Nat → Nat → List Token →
    Except LexFail (List Token)
  | 0, _, _, _, _ => .error .fuel
  | fuel + 1, chars, line, col, toks =>
    match chars with
    | [] => .ok (toks ++ [⟨TokenType.EOF, "", line, col⟩])
    | ch :: rest =>
      if py_isspace ch then
        let r := skip_whitespace (ch :: rest) line col
        tokenize_loop fuel r.1 r.2.1 r.2.2 toks
      else if ch = '#' then
        let r := skip_comment (ch :: rest) line col
        match r.1 with
        | some t => tokenize_loop fuel r.2.1 r.2.2.1 r.2.2.2 (toks ++ [t])
        | none => tokenize_loop fuel r.2.1 r.2.2.1 r.2.2.2 toks
      else if ch.isAlpha || ch = '_' then
        let r := read_identifier (ch :: rest) line col
        tokenize_loop fuel r.2.1 r.2.2.1 r.2.2.2 (toks ++ [r.1])
      else if ch.isDigit then
        let r := read_number (ch :: rest) line col
        tokenize_loop fuel r.2.1 r.2.2.1 r.2.2.2 (toks ++ [r.1])
      else if ch = '"' then
        match read_string rest line col with
        | .error e => .error (.err e)
        | .ok (t, rest2, l2, c2) => tokenize_loop fuel rest2 l2 c2 (toks ++ [t])
      else
        match read_operator (ch :: rest) line col with
        | some (t, rest2, l2, c2) => tokenize_loop fuel rest2 l2 c2 (toks ++ [t])
        | none =>
          match delimiter_type ch with
          | some dt =>
            tokenize_loop fuel rest line (col + 1)
              (toks ++ [⟨dt, String.singleton ch, line, col⟩])
          | none =>
            .error (.err ⟨line, col,
              "Invalid character '" ++ String.singleton ch ++ "'"⟩)

/-- `Scanner.tokenize` on a source given as characters: run the loop from
line 1, column 1 with fuel that `tokenize_loop_sufficient` proves ample
(every iteration consumes at least one character). -/
def tokenize (source : List Char) : Except LexFail (List Token) :=
  tokenize_loop (source.length + 1) source 1 1 []

end Khamseena

namespace Khamseena

/-! The AST (`ast_nodes.py`). Expression nodes are a separate inductive
from statement nodes; `Stmt.ExprNode` models a bare expression node
sitting in a statement position (the Python AST is dynamically typed, so
any node can appear in a statement list; the parser never builds this,
but the analyzer's dispatch handles it). -/

inductive Expr where
  | Literal (value : String) (type : String)
  | Variable (name : String)
  | BinaryOp (left : Expr) (operator : String) (right : Expr)
  | UnaryOp (operator : String) (operand : Expr)
  | FunctionCall (name : String) (arguments : List Expr)

/-- A `Parameter` node: the declared type is `none` when the parameter
was written without a type keyword. -/
structure Parameter where
  param_type : Option String
  name : String
deriving DecidableEq, Repr

inductive Stmt where
  | ExpressionStatement (expression : Expr)
  | FunctionDef (name : String) (parameters : List Parameter) (body : Stmt)
  | VarDeclaration (var_type : String) (name : String) (initializer : Option Expr)
  | Assignment (name : String) (value : Expr)
  | PrintStatement (expression : Expr)
  | IfStatement (condition : Expr) (then_stmt : Option Stmt) (else_stmt : Option Stmt)
  | WhileStatement (condition : Expr) (body : Option Stmt)
  | ReturnStatement (value : Option Expr)
  | Block (statements : List Stmt)
  | CommentStatement (text : String)
  | InputStatement (expression : Expr)
  | FetchStatement (name : String)
  | ExprNode (e : Expr)

/-- The `Program` root node. -/
structure Program where
  statements : List Stmt

/-! The parser (`khamseena_parser.py`, class `Parser`). The parser
object's `tokens`/`current` index pair is modelled as the unconsumed
suffix `rest` plus `prev`, the most recently consumed token
(`self.previous()`). -/

structure PState where
  rest : List Token
  prev : Option Token
deriving DecidableEq, Repr

/-- A `ParseError`: the line reported by `Parser.error` (or by the direct
`raise ParseError(...)` sites), `none` when `peek()` was `None`, plus the
bare message. -/
structure ParseErr where
  line : Option Nat
  msg : String
deriving DecidableEq, Repr

/-- The string a `ParseErr` renders to, as raised in Python. -/
def ParseErr.render (e : ParseErr) : String :=
  match e.line with
  | some l => "Parse error at line " ++ toString l ++ ": " ++ e.msg
  | none => "Parse error: " ++ e.msg

/-- Failure channel of the parser functions: a raised `ParseError`
together with the parser state at the raise (which is where
`synchronize` resumes from), or fuel exhaustion (an embedding artifact,
ruled out by the sufficiency theorem). -/
inductive PFail where
  | fuel : PFail
  | err (e : ParseErr) (resume : PState) : PFail
deriving DecidableEq, Repr

/-- `Parser.peek`. -/
def peekT (st : PState) : Option Token :=
  match st.rest with
  | t :: _ => some t
  | [] => none

/-- `Parser.at_end`: no current token, or the current token is EOF. -/
def at_end (st : PState) : Bool :=
  match st.rest with
  | [] => true
  | t :: _ => t.type = TokenType.EOF

/-- `Parser.check`. -/
def check (st : PState) (ty : String) : Bool :=
  match st.rest with
  | t :: _ => t.type = ty
  | [] => false

/-- `Parser.advance`: consume the current token unless at the end, and
return `previous()` (the token just consumed, when one was). -/
def advance (st : PState) : Option Token × PState :=
  if at_end st then (st.prev, st)
  else
    match st.rest with
    | t :: rest => (some t, ⟨rest, some t⟩)
    | [] => (st.prev, st)

/-- `Parser.match(*types)`: when the current token's type is in `tys`,
consume it and return it (Python returns `True`; callers then read
`previous()`, which is the returned token here). -/
def matchT (st : PState) (tys : List String) : Option Token × PState :=
  match st.rest with
  | t :: _ => if tys.contains t.type then advance st else (none, st)
  | [] => (none, st)

/-- `Parser.error`: a `ParseError` carrying the current token's line when
there is one, raised at the current state. -/
def parse_error (st : PState) (msg : String) : PFail :=
  match st.rest with
  | t :: _ => .err ⟨some t.line, msg⟩ st
  | [] => .err ⟨none, msg⟩ st

/-- `Parser.consume`: the expected token or a raised error. (`consume`
is never invoked with `ty = EOF`, the one case where `advance`'s at-end
guard would make it differ from this direct form.) -/
def consume (st : PState) (ty msg : String) : Except PFail (Token × PState) :=
  match st.rest with
  | t :: rest =>
    if t.type = ty then .ok (t, ⟨rest, some t⟩) else .error (parse_error st msg)
  | [] => .error (parse_error st msg)

end Khamseena

namespace Khamseena

/-- `Parser.check_semicolon_after_statement` is inlined at its use sites
in the Python source as direct raises; the `validate_*` helpers below are
the ones the statement parsers actually call. `validate_parentheses`:
raise unless the expected parenthesis is the current token. -/
def validate_parentheses (st : PState) (expected : String) (context : String) :
    Except PFail Unit :=
  if check st expected then .ok ()
  else
    let paren_name := if expected = TokenType.LPAREN then "(" else ")"
    .error (parse_error st ("Expected '" ++ paren_name ++ "' in " ++ context))

/-- `Parser.validate_braces`: raise unless the expected brace is the
current token. -/
def validate_braces (st : PState) (expected : String) (context : String) :
    Except PFail Unit :=
  if check st expected then .ok ()
  else
    let brace_name := if expected = TokenType.LBRACE then "\x7b" else "\x7d"
    .error (parse_error st ("Expected '" ++ brace_name ++ "' in " ++ context))

/-- The `while` loop of `Parser.synchronize`: stop when at the end, when
the previously consumed token was a `;`, or when the current token is one
of RECIPE, SERVE, COUNT; otherwise consume and continue. (Python reads
`self.previous().type` unguarded; `previous()` is never `None` here
because `synchronize` only runs after at least one token was consumed.) -/
def synchronize_loop : List Token → Option Token → PState
  | [], prev => ⟨[], prev⟩
  | t :: rest, prev =>
    if t.type = TokenType.EOF then ⟨t :: rest, prev⟩
    else if prev.any (fun p => p.type = TokenType.SEMICOLON) then ⟨t :: rest, prev⟩
    else if t.type = TokenType.RECIPE ∨ t.type = TokenType.SERVE ∨
        t.type = TokenType.COUNT then ⟨t :: rest, prev⟩
    else synchronize_loop rest (some t)

/-- `Parser.synchronize`: skip the offending token, then advance to the
next statement boundary per `synchronize_loop`. -/
def synchronize (st : PState) : PState :=
  let st1 := (advance st).2
  synchronize_loop st1.rest st1.prev

/-- `Parser.parse_fetch` (entered with `fetch` already consumed): module
name, then `;` — whose absence is reported at the line of the module-name
token (`fetch_line = name.line` in the source), not at the current token. -/
def parse_fetch (st : PState) : Except PFail (Stmt × PState) := do
  let (name, st1) ← consume st TokenType.IDENTIFIER "Expected module name after 'fetch'"
  let fetch_line := name.line
  if check st1 TokenType.SEMICOLON then
    let (_, st2) ← consume st1 TokenType.SEMICOLON "Expected ';' after fetch statement"
    return (Stmt.FetchStatement name.value, st2)
  else
    .error (.err ⟨some fetch_line, "Expected ';' after fetch statement"⟩ st1)

/-- `Parser.parse_comment` (entered with the COMMENT token consumed):
wrap `previous()`'s text. (`prev` is the consumed token here; the `getD`
default is unreachable.) -/
def parse_comment (st : PState) : Except PFail (Stmt × PState) :=
  .ok (Stmt.CommentStatement ((st.prev.map Token.value).getD ""), st)

/-- `Parser.parse_parameter`: an optional type keyword (COUNT, MEASURE or
FLAVOR — NOTE is absent from this `match` in the source) then the
parameter name. -/
def parse_parameter (st : PState) : Except PFail (Parameter × PState) := do
  let r := matchT st [TokenType.COUNT, TokenType.MEASURE, TokenType.FLAVOR]
  let param_type := r.1.map Token.value
  let (nameTok, st1) ← consume r.2 TokenType.IDENTIFIER "Expected parameter name"
  return (⟨param_type, nameTok.value⟩, st1)

mutual

/-- `Parser.parse_primary`: literal, boolean keyword, identifier, or a
parenthesised expression; anything else raises "Expected expression". -/
def parse_primary : Nat → PState → Except PFail (Expr × PState)
  | 0, _ => .error .fuel
  | fuel + 1, st =>
    match matchT st [TokenType.INTEGER] with
    | (some t, st1) => .ok (Expr.Literal t.value "INTEGER", st1)
    | (none, _) =>
    match matchT st [TokenType.FLOAT] with
    | (some t, st1) => .ok (Expr.Literal t.value "FLOAT", st1)
    | (none, _) =>
    match matchT st [TokenType.STRING] with
    | (some t, st1) => .ok (Expr.Literal t.value "STRING", st1)
    | (none, _) =>
    match matchT st [TokenType.SWEET] with
    | (some _, st1) => .ok (Expr.Literal "sweet" "BOOLEAN", st1)
    | (none, _) =>
    match matchT st [TokenType.SOUR] with
    | (some _, st1) => .ok (Expr.Literal "sour" "BOOLEAN", st1)
    | (none, _) =>
    match matchT st [TokenType.IDENTIFIER] with
    | (some t, st1) => .ok (Expr.Variable t.value, st1)
    | (none, _) =>
    match matchT st [TokenType.LPAREN] with
    | (some _, st1) => do
      let (e, st2) ← parse_expression fuel st1
      let (_, st3) ← consume st2 TokenType.RPAREN "Expected ')' after expression"
      return (e, st3)
    | (none, _) => .error (parse_error st "Expected expression")

/-- The argument loop of `Parser.parse_call`: further `, expression`
pairs. -/
def parse_call_args : Nat → PState → List Expr → Except PFail (List Expr × PState)
  | 0, _, _ => .error .fuel
  | fuel + 1, st, acc =>
    match matchT st [TokenType.COMMA] with
    | (some _, st1) => do
      let (a, st2) ← parse_expression fuel st1
      parse_call_args fuel st2 (acc ++ [a])
    | (none, _) => .ok (acc, st)

/-- `Parser.parse_call`: a primary, optionally followed by a call
argument list; call syntax on anything but a bare identifier raises
"Can only call functions" (after the `)` was consumed). -/
def parse_call : Nat → PState → Except PFail (Expr × PState)
  | 0, _ => .error .fuel
  | fuel + 1, st => do
    let (expr, st1) ← parse_primary fuel st
    match matchT st1 [TokenType.LPAREN] with
    | (some _, st2) => do
      let (args, st3) ←
        if check st2 TokenType.RPAREN then (.ok ([], st2) : Except PFail (List Expr × PState))
        else do
          let (a, st') ← parse_expression fuel st2
          parse_call_args fuel st' [a]
      let (_, st4) ← consume st3 TokenType.RPAREN "Expected ')' after arguments"
      match expr with
      | Expr.Variable name => return (Expr.FunctionCall name args, st4)
      | _ => .error (parse_error st4 "Can only call functions")
    | (none, _) => return (expr, st1)

/-- `Parser.parse_unary`: `!` or unary `-` applied recursively, else a
call. -/
def parse_unary : Nat → PState → Except PFail (Expr × PState)
  | 0, _ => .error .fuel
  | fuel + 1, st =>
    match matchT st [TokenType.NOT, TokenType.MINUS] with
    | (some op, st1) => do
      let (right, st2) ← parse_unary fuel st1
      return (Expr.UnaryOp op.value right, st2)
    | (none, _) => parse_call fuel st

/-- The `*`/`/`/`%` loop of `Parser.parse_factor`. -/
def parse_factor_loop : Nat → PState → Expr → Except PFail (Expr × PState)
  | 0, _, _ => .error .fuel
  | fuel + 1, st, expr =>
    match matchT st [TokenType.MULTIPLY, TokenType.DIVIDE, TokenType.MODULO] with
    | (some op, st1) => do
      let (right, st2) ← parse_unary fuel st1
      parse_factor_loop fuel st2 (Expr.BinaryOp expr op.value right)
    | (none, _) => .ok (expr, st)

/-- `Parser.parse_factor`. -/
def parse_factor : Nat → PState → Except PFail (Expr × PState)
  | 0, _ => .error .fuel
  | fuel + 1, st => do
    let (e, st1) ← parse_unary fuel st
    parse_factor_loop fuel st1 e

/-- The `+`/`-` loop of `Parser.parse_term`. -/
def parse_term_loop : Nat → PState → Expr → Except PFail (Expr × PState)
  | 0, _, _ => .error .fuel
  | fuel + 1, st, expr =>
    match matchT st [TokenType.PLUS, TokenType.MINUS] with
    | (some op, st1) => do
      let (right, st2) ← parse_factor fuel st1
      parse_term_loop fuel st2 (Expr.BinaryOp expr op.value right)
    | (none, _) => .ok (expr, st)

/-- `Parser.parse_term`. -/
def parse_term : Nat → PState → Except PFail (Expr × PState)
  | 0, _ => .error .fuel
  | fuel + 1, st => do
    let (e, st1) ← parse_factor fuel st
    parse_term_loop fuel st1 e

/-- The comparison-operator loop of `Parser.parse_comparison`. -/
def parse_comparison_loop : Nat → PState → Expr → Except PFail (Expr × PState)
  | 0, _, _ => .error .fuel
  | fuel + 1, st, expr =>
    match matchT st [TokenType.GREATER, TokenType.LESS, TokenType.GREATER_EQUAL,
        TokenType.LESS_EQUAL] with
    | (some op, st1) => do
      let (right, st2) ← parse_term fuel st1
      parse_comparison_loop fuel st2 (Expr.BinaryOp expr op.value right)
    | (none, _) => .ok (expr, st)

/-- `Parser.parse_comparison`. -/
def parse_comparison : Nat → PState → Except PFail (Expr × PState)
  | 0, _ => .error .fuel
  | fuel + 1, st => do
    let (e, st1) ← parse_term fuel st
    parse_comparison_loop fuel st1 e

/-- The `==`/`!=` loop of `Parser.parse_equality`. -/
def parse_equality_loop : Nat → PState → Expr → Except PFail (Expr × PState)
  | 0, _, _ => .error .fuel
  | fuel + 1, st, expr =>
    match matchT st [TokenType.EQUAL, TokenType.NOT_EQUAL] with
    | (some op, st1) => do
      let (right, st2) ← parse_comparison fuel st1
      parse_equality_loop fuel st2 (Expr.BinaryOp expr op.value right)
    | (none, _) => .ok (expr, st)

/-- `Parser.parse_equality`. -/
def parse_equality : Nat → PState → Except PFail (Expr × PState)
  | 0, _ => .error .fuel
  | fuel + 1, st => do
    let (e, st1) ← parse_comparison fuel st
    parse_equality_loop fuel st1 e

/-- The `&&` loop of `Parser.parse_and`. -/
def parse_and_loop : Nat → PState → Expr → Except PFail (Expr × PState)
  | 0, _, _ => .error .fuel
  | fuel + 1, st, expr =>
    match matchT st [TokenType.AND] with
    | (some op, st1) => do
      let (right, st2) ← parse_equality fuel st1
      parse_and_loop fuel st2 (Expr.BinaryOp expr op.value right)
    | (none, _) => .ok (expr, st)

/-- `Parser.parse_and`. -/
def parse_and : Nat → PState → Except PFail (Expr × PState)
  | 0, _ => .error .fuel
  | fuel + 1, st => do
    let (e, st1) ← parse_equality fuel st
    parse_and_loop fuel st1 e

/-- The `||` loop of `Parser.parse_or`. -/
def parse_or_loop : Nat → PState → Expr → Except PFail (Expr × PState)
  | 0, _, _ => .error .fuel
  | fuel + 1, st, expr =>
    match matchT st [TokenType.OR] with
    | (some op, st1) => do
      let (right, st2) ← parse_and fuel st1
      parse_or_loop fuel st2 (Expr.BinaryOp expr op.value right)
    | (none, _) => .ok (expr, st)

/-- `Parser.parse_or`. -/
def parse_or : Nat → PState → Except PFail (Expr × PState)
  | 0, _ => .error .fuel
  | fuel + 1, st => do
    let (e, st1) ← parse_and fuel st
    parse_or_loop fuel st1 e

/-- `Parser.parse_expression` (an alias for `parse_or`). -/
def parse_expression : Nat → PState → Except PFail (Expr × PState)
  | 0, _ => .error .fuel
  | fuel + 1, st => parse_or fuel st

/-- `Parser.parse_var_declaration` (entered with the type keyword
consumed, readable as `previous()`): name, optional `= expression`
initializer, then `;` — whose absence is reported at the line of the
NAME token (`var_line = name_token.line` in the source), not at the
current token and not at the type keyword. -/
def parse_var_declaration : Nat → PState → Except PFail (Stmt × PState)
  | 0, _ => .error .fuel
  | fuel + 1, st => do
    let var_type := (st.prev.map Token.value).getD ""
    let (name_token, st1) ← consume st TokenType.IDENTIFIER "Expected variable name"
    let name := name_token.value
    let var_line := name_token.line
    let r := matchT st1 [TokenType.ASSIGN]
    let (initializer, st2) ←
      match r.1 with
      | some _ => (parse_expression fuel r.2).map (fun p => (some p.1, p.2))
      | none => (.ok (none, r.2) : Except PFail (Option Expr × PState))
    if check st2 TokenType.SEMICOLON then do
      let (_, st3) ← consume st2 TokenType.SEMICOLON "Expected ';' after variable declaration"
      return (Stmt.VarDeclaration var_type name initializer, st3)
    else
      .error (.err ⟨some var_line, "Expected ';' after variable declaration"⟩ st2)

/-- `Parser.parse_assignment` (entered with the target identifier
consumed, readable as `previous()`): `= expression ;`, the missing-`;`
error reported at the identifier's line. -/
def parse_assignment : Nat → PState → Except PFail (Stmt × PState)
  | 0, _ => .error .fuel
  | fuel + 1, st => do
    let name := (st.prev.map Token.value).getD ""
    let name_line := (st.prev.map Token.line).getD 0
    let (_, st1) ← consume st TokenType.ASSIGN "Expected '=' in assignment"
    let (value, st2) ← parse_expression fuel st1
    if check st2 TokenType.SEMICOLON then do
      let (_, st3) ← consume st2 TokenType.SEMICOLON "Expected ';' after assignment"
      return (Stmt.Assignment name value, st3)
    else
      .error (.err ⟨some name_line, "Expected ';' after assignment"⟩ st2)

/-- `Parser.parse_print` (entered with `serve` consumed): expression then
`;`, the missing-`;` error reported at the `serve` keyword's line. -/
def parse_print : Nat → PState → Except PFail (Stmt × PState)
  | 0, _ => .error .fuel
  | fuel + 1, st => do
    let serve_line := (st.prev.map Token.line).getD 0
    let (expr, st1) ← parse_expression fuel st
    if check st1 TokenType.SEMICOLON then do
      let (_, st2) ← consume st1 TokenType.SEMICOLON "Expected ';' after print"
      return (Stmt.PrintStatement expr, st2)
    else
      .error (.err ⟨some serve_line, "Expected ';' after print statement"⟩ st1)

/-- `Parser.parse_input` (entered with `pour` consumed): expression then
`;`, the missing-`;` error reported at the `pour` keyword's line. -/
def parse_input : Nat → PState → Except PFail (Stmt × PState)
  | 0, _ => .error .fuel
  | fuel + 1, st => do
    let pour_line := (st.prev.map Token.line).getD 0
    let (expr, st1) ← parse_expression fuel st
    if check st1 TokenType.SEMICOLON then do
      let (_, st2) ← consume st1 TokenType.SEMICOLON "Expected ';' after input"
      return (Stmt.InputStatement expr, st2)
    else
      .error (.err ⟨some pour_line, "Expected ';' after input statement"⟩ st1)

/-- `Parser.parse_return` (entered with `deliver` consumed): optional
expression then `;`, the missing-`;` error reported at the `deliver`
keyword's line. -/
def parse_return : Nat → PState → Except PFail (Stmt × PState)
  | 0, _ => .error .fuel
  | fuel + 1, st => do
    let return_line := (st.prev.map Token.line).getD 0
    let (value, st1) ←
      if check st TokenType.SEMICOLON then
        (.ok (none, st) : Except PFail (Option Expr × PState))
      else (parse_expression fuel st).map (fun p => (some p.1, p.2))
    if check st1 TokenType.SEMICOLON then do
      let (_, st2) ← consume st1 TokenType.SEMICOLON "Expected ';' after return"
      return (Stmt.ReturnStatement value, st2)
    else
      .error (.err ⟨some return_line, "Expected ';' after return statement"⟩ st1)

/-- `Parser.parse_if` (entered with `taste` consumed): parenthesised
condition, a then-statement (best-effort brace validation first), and an
optional `retaste` else-statement. -/
def parse_if : Nat → PState → Except PFail (Stmt × PState)
  | 0, _ => .error .fuel
  | fuel + 1, st => do
    let _ ← validate_parentheses st TokenType.LPAREN "taste statement"
    let (_, st1) ← consume st TokenType.LPAREN "Expected '(' after 'taste'"
    let (condition, st2) ← parse_expression fuel st1
    let (_, st3) ← consume st2 TokenType.RPAREN "Expected ')' after taste condition"
    let _ ← validate_braces st3 TokenType.LBRACE "taste statement body"
    let (then_stmt, st4) ← parse_statement fuel st3
    match matchT st4 [TokenType.RETASTE] with
    | (some _, st5) => do
      let _ ← validate_braces st5 TokenType.LBRACE "retaste statement body"
      let (else_stmt, st6) ← parse_statement fuel st5
      return (Stmt.IfStatement condition then_stmt else_stmt, st6)
    | (none, st5) => return (Stmt.IfStatement condition then_stmt none, st5)

/-- `Parser.parse_while` (entered with `stir` consumed): parenthesised
condition then a body statement. -/
def parse_while : Nat → PState → Except PFail (Stmt × PState)
  | 0, _ => .error .fuel
  | fuel + 1, st => do
    let _ ← validate_parentheses st TokenType.LPAREN "stir statement"
    let (_, st1) ← consume st TokenType.LPAREN "Expected '(' after 'stir'"
    let (condition, st2) ← parse_expression fuel st1
    let (_, st3) ← consume st2 TokenType.RPAREN "Expected ')' after stir condition"
    let _ ← validate_braces st3 TokenType.LBRACE "stir statement body"
    let (body, st4) ← parse_statement fuel st3
    return (Stmt.WhileStatement condition body, st4)

/-- The parameter loop of `Parser.parse_function`: further `, parameter`
pairs. -/
def parse_params_loop : Nat → PState → List Parameter →
    Except PFail (List Parameter × PState)
  | 0, _, _ => .error .fuel
  | fuel + 1, st, acc =>
    match matchT st [TokenType.COMMA] with
    | (some _, st1) => do
      let (p, st2) ← parse_parameter st1
      parse_params_loop fuel st2 (acc ++ [p])
    | (none, _) => .ok (acc, st)

/-- `Parser.parse_function` (entered with `recipe` consumed): name,
parenthesised parameter list, then a braced body block. -/
def parse_function : Nat → PState → Except PFail (Stmt × PState)
  | 0, _ => .error .fuel
  | fuel + 1, st => do
    let (nameTok, st1) ← consume st TokenType.IDENTIFIER "Expected function name"
    let _ ← validate_parentheses st1 TokenType.LPAREN "function parameters"
    let (_, st2) ← consume st1 TokenType.LPAREN "Expected '(' after function name"
    let (parameters, st3) ←
      if check st2 TokenType.RPAREN then
        (.ok ([], st2) : Except PFail (List Parameter × PState))
      else do
        let (p, st') ← parse_parameter st2
        parse_params_loop fuel st' [p]
    let (_, st4) ← consume st3 TokenType.RPAREN "Expected ')' after parameters"
    let _ ← validate_braces st4 TokenType.LBRACE "function body"
    let (_, st5) ← consume st4 TokenType.LBRACE "Expected '\x7b' before function body"
    let (body, st6) ← parse_block fuel st5
    return (Stmt.FunctionDef nameTok.value parameters body, st6)

/-- The statement loop of `Parser.parse_block`: parse statements until
`}` or the end, appending those that did not fail. -/
def parse_block_loop : Nat → PState → List Stmt → Except PFail (List Stmt × PState)
  | 0, _, _ => .error .fuel
  | fuel + 1, st, acc =>
    if ¬(check st TokenType.RBRACE) ∧ ¬(at_end st = true) then do
      let (stmt, st1) ← parse_statement fuel st
      match stmt with
      | some s => parse_block_loop fuel st1 (acc ++ [s])
      | none => parse_block_loop fuel st1 acc
    else .ok (acc, st)

/-- `Parser.parse_block` (entered with `{` already consumed): statements
then the closing `}`. -/
def parse_block : Nat → PState → Except PFail (Stmt × PState)
  | 0, _ => .error .fuel
  | fuel + 1, st => do
    let (statements, st1) ← parse_block_loop fuel st []
    let (_, st2) ← consume st1 TokenType.RBRACE "Expected '\x7d'"
    return (Stmt.Block statements, st2)

/-- The `try` body of `Parser.parse_statement`: the first-token dispatch
chain, in source order. Note the third branch: because
`TokenType.NOTE = TokenType.COMMENT = "COMMENT"`, a COMMENT token is
matched HERE (sent to `parse_var_declaration`), making the later
COMMENT branch dead code. The final else consumes the unknown token and
yields no statement. -/
def parse_statement_body : Nat → PState → Except PFail (Option Stmt × PState)
  | 0, _ => .error .fuel
  | fuel + 1, st =>
    match matchT st [TokenType.FETCH] with
    | (some _, st1) => (parse_fetch st1).map (fun p => (some p.1, p.2))
    | (none, _) =>
    match matchT st [TokenType.RECIPE] with
    | (some _, st1) => (parse_function fuel st1).map (fun p => (some p.1, p.2))
    | (none, _) =>
    match matchT st [TokenType.COUNT, TokenType.MEASURE, TokenType.NOTE,
        TokenType.FLAVOR] with
    | (some _, st1) => (parse_var_declaration fuel st1).map (fun p => (some p.1, p.2))
    | (none, _) =>
    match matchT st [TokenType.SERVE] with
    | (some _, st1) => (parse_print fuel st1).map (fun p => (some p.1, p.2))
    | (none, _) =>
    match matchT st [TokenType.POUR] with
    | (some _, st1) => (parse_input fuel st1).map (fun p => (some p.1, p.2))
    | (none, _) =>
    match matchT st [TokenType.TASTE] with
    | (some _, st1) => (parse_if fuel st1).map (fun p => (some p.1, p.2))
    | (none, _) =>
    match matchT st [TokenType.STIR] with
    | (some _, st1) => (parse_while fuel st1).map (fun p => (some p.1, p.2))
    | (none, _) =>
    match matchT st [TokenType.DELIVER] with
    | (some _, st1) => (parse_return fuel st1).map (fun p => (some p.1, p.2))
    | (none, _) =>
    match matchT st [TokenType.COMMENT] with
    | (some _, st1) => (parse_comment st1).map (fun p => (some p.1, p.2))
    | (none, _) =>
    match matchT st [TokenType.LBRACE] with
    | (some _, st1) => (parse_block fuel st1).map (fun p => (some p.1, p.2))
    | (none, _) =>
    match matchT st [TokenType.IDENTIFIER] with
    | (some nameTok, st1) =>
      if check st1 TokenType.ASSIGN then
        (parse_assignment fuel st1).map (fun p => (some p.1, p.2))
      else do
        let expr := Expr.Variable nameTok.value
        let (_, st2) ← consume st1 TokenType.SEMICOLON "Expected ';' after expression"
        return (some (Stmt.ExpressionStatement expr), st2)
    | (none, _) => .ok (none, (advance st).2)

/-- `Parser.parse_statement`: run the dispatch body; a raised
`ParseError` is caught (Python prints it as a warning), the parser
synchronizes from the state at the raise, and no statement is produced. -/
def parse_statement : Nat → PState → Except PFail (Option Stmt × PState)
  | 0, _ => .error .fuel
  | fuel + 1, st =>
    match parse_statement_body fuel st with
    | .ok r => .ok r
    | .error (.err _e resume) => .ok (none, synchronize resume)
    | .error .fuel => .error .fuel

/-- The top loop of `Parser.parse`: parse statements until the end,
keeping those that did not fail. -/
def parse_statements_loop : Nat → PState → List Stmt →
    Except PFail (List Stmt × PState)
  | 0, _, _ => .error .fuel
  | fuel + 1, st, acc =>
    if at_end st then .ok (acc, st)
    else do
      let (stmt, st1) ← parse_statement fuel st
      match stmt with
      | some s => parse_statements_loop fuel st1 (acc ++ [s])
      | none => parse_statements_loop fuel st1 acc

end

/-- Fuel that `parse_fuel_sufficient` proves ample for any token list:
every chain of 32 nested parser calls either consumes a token or
bottoms out. -/
def parse_fuel (tokens : List Token) : Nat :=
  32 * (tokens.length + 1)

/-- `Parser.parse`: run the statement loop from the start of the token
list and wrap the surviving statements in a `Program`. -/
def parse (tokens : List Token) : Except PFail Program :=
  (parse_statements_loop (parse_fuel tokens) ⟨tokens, none⟩ []).map
    (fun p => Program.mk p.1)

end Khamseena

namespace Khamseena

/-! The semantic analyzer (`semantic_analyzer.py`). A `SymbolTable`
node keeps its name-to-symbol map in insertion order; the Python
`parent` back-link becomes the `ancestors` stack in `AState` (nearest
enclosing scope first), and the `children` list — used only by the
printed report — is not modelled. -/

/-- One symbol-table entry: `{'type': ..., 'kind': ...}`. -/
structure Sym where
  type : String
  kind : String
deriving DecidableEq, Repr

/-- One scope of the symbol table (`SymbolTable` minus the tree links). -/
structure Scope where
  scope_name : String
  symbols : List (String × Sym)
deriving DecidableEq, Repr

/-- `SymbolTable.lookup_local`: the current scope only. -/
def Scope.lookup_local (sc : Scope) (name : String) : Option Sym :=
  (sc.symbols.find? (fun p => p.1 = name)).map Prod.snd

/-- `SymbolTable.define`: add a symbol, or raise `SemanticError` when the
name is already bound in this scope. -/
def Scope.define (sc : Scope) (name : String) (sym : Sym) : Except String Scope :=
  if (sc.lookup_local name).isSome then
    .error ("Symbol '" ++ name ++ "' already defined in " ++ sc.scope_name ++ " scope")
  else .ok ⟨sc.scope_name, sc.symbols ++ [(name, sym)]⟩

/-- `SymbolTable.lookup` along a parent chain (nearest scope first). -/
def lookup_chain : List Scope → String → Option Sym
  | [], _ => none
  | sc :: rest, name =>
    match sc.lookup_local name with
    | some s => some s
    | none => lookup_chain rest name

/-- The `SemanticAnalyzer` state: the current scope, its enclosing
scopes (global last), and the accumulated diagnostics. -/
structure AState where
  current : Scope
  ancestors : List Scope
  errors : List String
  warnings : List String
  scope_counter : Nat
deriving DecidableEq, Repr

/-- The analyzer's starting state: an empty global scope, no
diagnostics. -/
def init_state : AState :=
  ⟨⟨"global", []⟩, [], [], [], 0⟩

/-- Append one error. -/
def add_error (st : AState) (msg : String) : AState :=
  { st with errors := st.errors ++ [msg] }

/-- Append one warning. -/
def add_warning (st : AState) (msg : String) : AState :=
  { st with warnings := st.warnings ++ [msg] }

/-- `SymbolTable.lookup` from the current scope (walks ancestors). -/
def AState.lookup (st : AState) (name : String) : Option Sym :=
  lookup_chain (st.current :: st.ancestors) name

/-- `SymbolTable.exists`: found in any enclosing scope. -/
def AState.exists_name (st : AState) (name : String) : Bool :=
  (st.lookup name).isSome

/-- `SymbolTable.get_type`: the found symbol's type, if any. -/
def AState.get_type (st : AState) (name : String) : Option String :=
  (st.lookup name).map Sym.type

/-- `SemanticAnalyzer.enter_scope`: push a fresh child scope, naming it
`block_<n>` from the bumped counter when no name is given. -/
def enter_scope (st : AState) (scope_name : Option String) : AState :=
  match scope_name with
  | some n =>
    { st with current := ⟨n, []⟩, ancestors := st.current :: st.ancestors }
  | none =>
    let k := st.scope_counter + 1
    let n := "block_" ++ toString k
    ⟨⟨n, []⟩, st.current :: st.ancestors, st.errors, st.warnings, k⟩

/-- `SemanticAnalyzer.exit_scope`: pop back to the parent scope; at the
global scope (no parent) this is a no-op. -/
def exit_scope (st : AState) : AState :=
  match st.ancestors with
  | p :: rest => { st with current := p, ancestors := rest }
  | [] => st

/-- The `type_map` of the analyzer with its `.get(t, t.upper())`
fallback, as used for declared variable types. -/
def type_map (t : String) : String :=
  if t = "count" then "INTEGER"
  else if t = "measure" then "FLOAT"
  else if t = "note" then "STRING"
  else if t = "flavor" then "BOOLEAN"
  else t.toUpper

/-- `SemanticAnalyzer.is_compatible`. -/
def is_compatible (target_type source_type : String) : Bool :=
  if source_type = "ANY" ∨ target_type = "ANY" then true
  else if target_type = source_type then true
  else if target_type = "FLOAT" ∧ source_type = "INTEGER" then true
  else false

/-- `SemanticAnalyzer.get_expression_type`: infer an expression's type,
appending errors/warnings along the way. Note the FunctionCall case:
the type is `ANY` with NO existence check and no recursion into the
arguments (the check lives in `visit_FunctionCall`, which only runs when
a call node is visited as a statement). -/
def get_expression_type : Expr → AState → String × AState
  | Expr.Literal _ t, st => (t, st)
  | Expr.Variable name, st =>
    match st.get_type name with
    | some t => (t, st)
    | none => ("ANY", add_error st ("Undefined variable '" ++ name ++ "'"))
  | Expr.BinaryOp l op r, st =>
    let p1 := get_expression_type l st
    let p2 := get_expression_type r p1.2
    let left_type := p1.1
    let right_type := p2.1
    let st2 := p2.2
    if ["+", "-", "*", "/", "%"].contains op then
      if ["INTEGER", "FLOAT"].contains left_type ∧
          ["INTEGER", "FLOAT"].contains right_type then
        (if left_type = "FLOAT" ∨ right_type = "FLOAT" then "FLOAT" else "INTEGER", st2)
      else
        ("ANY", add_error st2 ("Invalid operands for '" ++ op ++ "': " ++ left_type ++
          " and " ++ right_type ++ " (expected numeric types)"))
    else if [">", "<", ">=", "<=", "==", "!="].contains op then
      if left_type ≠ right_type ∧ left_type ≠ "ANY" ∧ right_type ≠ "ANY" then
        ("BOOLEAN", add_warning st2 ("Comparing different types: " ++ left_type ++
          " " ++ op ++ " " ++ right_type))
      else ("BOOLEAN", st2)
    else if ["&&", "||"].contains op then
      let stL :=
        if ¬(["BOOLEAN", "ANY"].contains left_type) then
          add_warning st2 ("Left operand of '" ++ op ++ "' should be BOOLEAN, got " ++
            left_type)
        else st2
      let stR :=
        if ¬(["BOOLEAN", "ANY"].contains right_type) then
          add_warning stL ("Right operand of '" ++ op ++ "' should be BOOLEAN, got " ++
            right_type)
        else stL
      ("BOOLEAN", stR)
    else ("ANY", st2)
  | Expr.UnaryOp op operand, st =>
    let p := get_expression_type operand st
    let operand_type := p.1
    let st1 := p.2
    if op = "-" then
      if ["INTEGER", "FLOAT"].contains operand_type then (operand_type, st1)
      else
        ("ANY", add_error st1 ("Cannot apply unary '-' to " ++ operand_type ++
          " (expected numeric type)"))
    else if op = "!" then
      if ¬(["BOOLEAN", "ANY"].contains operand_type) then
        ("BOOLEAN", add_warning st1 ("Logical NOT '!' should operate on BOOLEAN, got " ++
          operand_type))
      else ("BOOLEAN", st1)
    else ("ANY", st1)
  | Expr.FunctionCall _ _, st => ("ANY", st)

/-- `SemanticAnalyzer.visit_FunctionCall` (reached only when a
FunctionCall node is visited as a statement): existence check, then the
"is it actually a function" check. The arguments are not analyzed. -/
def visit_FunctionCall (name : String) (st : AState) : AState :=
  if ¬ st.exists_name name then
    add_error st ("Undefined function '" ++ name ++ "'")
  else
    match st.lookup name with
    | some sym =>
      if sym.kind ≠ "function" then add_error st ("'" ++ name ++ "' is not a function")
      else st
    | none => st

/-- The parameter loop of `visit_FunctionDef`: define each parameter in
the (fresh) function scope, catching per-parameter redefinition errors
with the "In function '...'" wrapper. A missing declared type maps to
`ANY` (Python's `param.param_type.upper() if param.param_type else
'ANY'` combined with the `type_map` lookup). -/
def define_params (fname : String) : List Parameter → AState → AState
  | [], st => st
  | p :: rest, st =>
    let param_type :=
      match p.param_type with
      | some t => type_map t
      | none => "ANY"
    match st.current.define p.name ⟨param_type, "parameter"⟩ with
    | .ok sc => define_params fname rest { st with current := sc }
    | .error e => define_params fname rest (add_error st ("In function '" ++ fname ++ "': " ++ e))

mutual

/-- `SemanticAnalyzer.visit` dispatch over statement-position nodes.
An escaping `SemanticError` is the `.error` channel (message plus the
analyzer state at the raise), caught only in `analyze`; the proofs show
it is never actually reached. `Stmt.ExprNode` models Python's dynamic
dispatch for a bare expression node in statement position: a
FunctionCall gets `visit_FunctionCall`, every other expression class has
no `visit_*` method and falls to `generic_visit` (a no-op). -/
def visit : Stmt → AState → Except (String × AState) AState
  | Stmt.ExpressionStatement e, st => .ok (get_expression_type e st).2
  | Stmt.FunctionDef name params body, st =>
    match st.current.define name ⟨"FUNCTION", "function"⟩ with
    | .error e => .ok (add_error st e)
    | .ok sc => do
      let st1 := { st with current := sc }
      let st2 := enter_scope st1 (some ("function_" ++ name))
      let st3 := define_params name params st2
      let st4 ← visit body st3
      return exit_scope st4
  | Stmt.VarDeclaration vt name initializer, st =>
    let var_type := type_map vt
    if (st.current.lookup_local name).isSome then
      .ok (add_error st ("Variable '" ++ name ++ "' already declared in " ++
        st.current.scope_name ++ " scope"))
    else
      let st2 :=
        match initializer with
        | some e =>
          let p := get_expression_type e st
          if ¬ is_compatible var_type p.1 then
            add_error p.2 ("Type mismatch in variable '" ++ name ++
              "': Cannot assign " ++ p.1 ++ " to " ++ var_type)
          else p.2
        | none => st
      match st2.current.define name ⟨var_type, "variable"⟩ with
      | .ok sc => .ok { st2 with current := sc }
      | .error e => .error (e, st2)
  | Stmt.Assignment name value, st =>
    if ¬ st.exists_name name then
      .ok (add_error st ("Undefined variable '" ++ name ++ "'"))
    else
      let var_type := (st.get_type name).getD ""
      let p := get_expression_type value st
      if ¬ is_compatible var_type p.1 then
        .ok (add_error p.2 ("Type mismatch in assignment to '" ++ name ++
          "': Cannot assign " ++ p.1 ++ " to " ++ var_type))
      else .ok p.2
  | Stmt.PrintStatement e, st => .ok (get_expression_type e st).2
  | Stmt.IfStatement cond then_stmt else_stmt, st => do
    let p := get_expression_type cond st
    let st1 :=
      if ¬(["BOOLEAN", "ANY"].contains p.1) then
        add_warning p.2 ("Condition in 'taste' statement should be BOOLEAN, got " ++ p.1)
      else p.2
    let st2 ← visit_opt then_stmt st1
    match else_stmt with
    | some e => visit e st2
    | none => return st2
  | Stmt.WhileStatement cond body, st => do
    let p := get_expression_type cond st
    let st1 :=
      if ¬(["BOOLEAN", "ANY"].contains p.1) then
        add_warning p.2 ("Loop condition in 'stir' statement should be BOOLEAN, got " ++ p.1)
      else p.2
    visit_opt body st1
  | Stmt.ReturnStatement value, st =>
    match value with
    | some e => .ok (get_expression_type e st).2
    | none => .ok st
  | Stmt.Block ss, st => do
    let st1 := enter_scope st none
    let st2 ← visit_list ss st1
    return exit_scope st2
  | Stmt.CommentStatement _, st => .ok st
  | Stmt.InputStatement e, st => .ok (get_expression_type e st).2
  | Stmt.FetchStatement _, st => .ok st
  | Stmt.ExprNode e, st =>
    match e with
    | Expr.FunctionCall name _ => .ok (visit_FunctionCall name st)
    | _ => .ok st

/-- `visit` over a statement list (the loops of `visit_Program` and
`visit_Block`). -/
def visit_list : List Stmt → AState → Except (String × AState) AState
  | [], st => .ok st
  | s :: rest, st => do
    let st1 ← visit s st
    visit_list rest st1

/-- `visit` on an optional statement: Python's `self.visit(None)` lands
in `generic_visit` and does nothing. -/
def visit_opt : Option Stmt → AState → Except (String × AState) AState
  | some s, st => visit s st
  | none, st => .ok st

end

/-- `SemanticAnalyzer.analyze`: walk the program from the fresh global
state; an escaping `SemanticError` is caught and appended as a final
error. The result is the finished analyzer state (the Python method's
boolean is `(analyze p).errors.isEmpty`). -/
def analyze (ast : Program) : AState :=
  match visit_list ast.statements init_state with
  | .ok st => st
  | .error (msg, st) => add_error st msg

end Khamseena

namespace Khamseena

/-! Claim theorems. Concrete programs used by counterexamples and
witnesses are declared as plain definitions next to their theorems. -/

/-- The program `count x = 3.5;` as the parser produces it. -/
def c5_prog_float_into_int : Program :=
  ⟨[Stmt.VarDeclaration "count" "x" (some (Expr.Literal "3.5" "FLOAT"))]⟩

/-- The program `measure y = 3;` as the parser produces it. -/
def c5_prog_int_into_float : Program :=
  ⟨[Stmt.VarDeclaration "measure" "y" (some (Expr.Literal "3" "INTEGER"))]⟩

/-- C5: `is_compatible target source` holds exactly when source is ANY,
or target is ANY, or they are equal, or target is FLOAT with source
INTEGER; consequently `analyze` on `count x = 3.5;` records exactly one
type-mismatch error, while `analyze` on `measure y = 3;` records none. -/
theorem C5_is_compatible_spec :
    (∀ target source : String,
      is_compatible target source = true ↔
        (source = "ANY" ∨ target = "ANY" ∨ target = source ∨
          (target = "FLOAT" ∧ source = "INTEGER"))) ∧
    (analyze c5_prog_float_into_int).errors =
      ["Type mismatch in variable 'x': Cannot assign FLOAT to INTEGER"] ∧
    (analyze c5_prog_int_into_float).errors = [] := by
  refine ⟨fun t s => ?_, rfl, rfl⟩
  simp only [is_compatible]
  split_ifs <;> simp_all
  tauto

/-- C4: for an arithmetic `BinaryOp` whose operand types (as inferred by
the recursive calls) are both numeric, the result type is FLOAT iff at
least one operand type is FLOAT and INTEGER otherwise, with no
diagnostic recorded by the operator check (the state is exactly the one
the operand recursion produced); when either operand type is
non-numeric, exactly one "Invalid operands" error is recorded and the
result type is ANY. -/
theorem C4_arith_result_type :
    ∀ (l r : Expr) (op : String) (st st1 st2 : AState) (lt rt : String),
      ["+", "-", "*", "/", "%"].contains op = true →
      get_expression_type l st = (lt, st1) →
      get_expression_type r st1 = (rt, st2) →
      (((lt = "INTEGER" ∨ lt = "FLOAT") ∧ (rt = "INTEGER" ∨ rt = "FLOAT")) →
        get_expression_type (Expr.BinaryOp l op r) st =
          ((if lt = "FLOAT" ∨ rt = "FLOAT" then "FLOAT" else "INTEGER"), st2)) ∧
      (¬((lt = "INTEGER" ∨ lt = "FLOAT") ∧ (rt = "INTEGER" ∨ rt = "FLOAT")) →
        get_expression_type (Expr.BinaryOp l op r) st =
          ("ANY", add_error st2 ("Invalid operands for '" ++ op ++ "': " ++ lt ++
            " and " ++ rt ++ " (expected numeric types)"))) := by
  intro l r op st st1 st2 lt rt hop hl hr
  constructor
  · rintro ⟨hlt, hrt⟩
    have h1 : (["INTEGER", "FLOAT"].contains lt) = true := by
      rcases hlt with h | h <;> simp [h]
    have h2 : (["INTEGER", "FLOAT"].contains rt) = true := by
      rcases hrt with h | h <;> simp [h]
    simp only [get_expression_type, hl, hr, hop]
    rw [if_pos trivial, if_pos ⟨h1, h2⟩]
  · intro hbad
    have h3 : ¬(["INTEGER", "FLOAT"].contains lt = true ∧
        ["INTEGER", "FLOAT"].contains rt = true) := by
      intro ⟨a, b⟩
      apply hbad
      constructor
      · simpa using a
      · simpa using b
    simp only [get_expression_type, hl, hr, hop]
    rw [if_pos trivial, if_neg h3]

/-- C4 witness: `1 + 2.0` infers FLOAT with no diagnostics, from the
theorem applied at concrete literals. -/
theorem C4_arith_result_type_witness :
    get_expression_type
        (Expr.BinaryOp (Expr.Literal "1" "INTEGER") "+" (Expr.Literal "2.0" "FLOAT"))
        init_state = ("FLOAT", init_state) := by
  have h := (C4_arith_result_type (Expr.Literal "1" "INTEGER")
    (Expr.Literal "2.0" "FLOAT") "+" init_state init_state init_state
    "INTEGER" "FLOAT" (by decide) rfl rfl).1 (by simp)
  simpa using h

end Khamseena

namespace Khamseena

/-- The program `count x = f();` — a FunctionCall with undeclared callee
`f` inside an initializer expression. -/
def c3_prog_call_in_expr : Program :=
  ⟨[Stmt.VarDeclaration "count" "x" (some (Expr.FunctionCall "f" []))]⟩

/-- C3 counterexample: a program containing a FunctionCall whose callee
is undeclared for which `analyze` records NO error at all (not exactly
one): the call sits inside an expression, and
`get_expression_type` returns ANY for calls without any existence check
— `visit_FunctionCall` runs only for call nodes in statement position. -/
theorem C3_counterexample :
    (analyze c3_prog_call_in_expr).errors = [] ∧
    ¬((analyze c3_prog_call_in_expr).errors.length = 1) := by
  refine ⟨rfl, ?_⟩
  intro h
  simp only [show (analyze c3_prog_call_in_expr).errors = [] from rfl] at h
  exact absurd h (by decide)

/-- C3 amended: the "undefined function" diagnostic fires only when the
FunctionCall node itself is visited as a statement (`visit_FunctionCall`),
where exactly one error is appended and the walk continues; a
FunctionCall inside an expression is never checked — its type is ANY and
no diagnostic is recorded. -/
theorem C3_undefined_function :
    (∀ (name : String) (args : List Expr) (st : AState),
      st.exists_name name = false →
      visit (Stmt.ExprNode (Expr.FunctionCall name args)) st =
        .ok (add_error st ("Undefined function '" ++ name ++ "'"))) ∧
    (∀ (name : String) (args : List Expr) (st : AState),
      get_expression_type (Expr.FunctionCall name args) st = ("ANY", st)) ∧
    (∀ (name : String) (args : List Expr) (rest : List Stmt) (st : AState),
      st.exists_name name = false →
      visit_list (Stmt.ExprNode (Expr.FunctionCall name args) :: rest) st =
        visit_list rest (add_error st ("Undefined function '" ++ name ++ "'"))) := by
  have hvc : ∀ (name : String) (st : AState), st.exists_name name = false →
      visit_FunctionCall name st = add_error st ("Undefined function '" ++ name ++ "'") := by
    intro name st h
    simp [visit_FunctionCall, h]
  refine ⟨fun name args st h => ?_, fun name args st => rfl, fun name args rest st h => ?_⟩
  · simp [visit, hvc name st h]
  · simp [visit_list, visit, hvc name st h]
    rfl

/-- C3 witness: analyzing the single statement `f()` (a call node in
statement position, `f` undeclared) from the fresh global state records
exactly the one "Undefined function" error. -/
theorem C3_undefined_function_witness :
    visit (Stmt.ExprNode (Expr.FunctionCall "f" [])) init_state =
      .ok (add_error init_state "Undefined function 'f'") :=
  C3_undefined_function.1 "f" [] init_state rfl

end Khamseena

namespace Khamseena

/-- The program `count y = x + 1;` with `x` undeclared. -/
def c8_prog_cascade : Program :=
  ⟨[Stmt.VarDeclaration "count" "y"
    (some (Expr.BinaryOp (Expr.Variable "x") "+" (Expr.Literal "1" "INTEGER")))]⟩

/-- C8 counterexample: in `count y = x + 1;` with `x` undeclared, the
ANY type produced for the undefined variable DOES cascade: the enclosing
arithmetic operator check records a second, "Invalid operands" error, so
the use of the undeclared variable is not the only diagnostic. -/
theorem C8_counterexample :
    (analyze c8_prog_cascade).errors =
      ["Undefined variable 'x'",
       "Invalid operands for '+': ANY and INTEGER (expected numeric types)"] ∧
    ¬((analyze c8_prog_cascade).errors.length = 1) := by
  refine ⟨rfl, ?_⟩
  intro h
  simp only [show (analyze c8_prog_cascade).errors =
    ["Undefined variable 'x'",
     "Invalid operands for '+': ANY and INTEGER (expected numeric types)"] from rfl] at h
  exact absurd h (by decide)

/-- C8 amended: an undeclared variable use records the one
"Undefined variable" error and yields ANY; that ANY records no further
diagnostic in comparison checks, logical checks, or
declaration/assignment compatibility (ANY is compatible with
everything), BUT the arithmetic-operator and unary-minus checks treat
ANY as non-numeric and record one additional error each. -/
theorem C8_any_propagation :
    (∀ (name : String) (st : AState),
      st.get_type name = none →
      get_expression_type (Expr.Variable name) st =
        ("ANY", add_error st ("Undefined variable '" ++ name ++ "'"))) ∧
    (∀ t : String, is_compatible t "ANY" = true) ∧
    (∀ (l r : Expr) (op : String) (st st1 st2 : AState) (rt : String),
      [">", "<", ">=", "<=", "==", "!="].contains op = true →
      get_expression_type l st = ("ANY", st1) →
      get_expression_type r st1 = (rt, st2) →
      get_expression_type (Expr.BinaryOp l op r) st = ("BOOLEAN", st2)) ∧
    (∀ (l r : Expr) (op : String) (st st1 st2 : AState),
      ["&&", "||"].contains op = true →
      get_expression_type l st = ("ANY", st1) →
      get_expression_type r st1 = ("ANY", st2) →
      get_expression_type (Expr.BinaryOp l op r) st = ("BOOLEAN", st2)) ∧
    (∀ (l r : Expr) (op : String) (st st1 st2 : AState) (rt : String),
      ["+", "-", "*", "/", "%"].contains op = true →
      get_expression_type l st = ("ANY", st1) →
      get_expression_type r st1 = (rt, st2) →
      get_expression_type (Expr.BinaryOp l op r) st =
        ("ANY", add_error st2 ("Invalid operands for '" ++ op ++ "': " ++ "ANY" ++
          " and " ++ rt ++ " (expected numeric types)"))) ∧
    (∀ (e : Expr) (st st1 : AState),
      get_expression_type e st = ("ANY", st1) →
      get_expression_type (Expr.UnaryOp "-" e) st =
        ("ANY", add_error st1 ("Cannot apply unary '-' to " ++ "ANY" ++
          " (expected numeric type)"))) := by
  refine ⟨fun name st h => ?_, fun t => ?_, fun l r op st st1 st2 rt hop hl hr => ?_,
    fun l r op st st1 st2 hop hl hr => ?_, fun l r op st st1 st2 rt hop hl hr => ?_,
    fun e st st1 h => ?_⟩
  · simp [get_expression_type, h]
  · simp [is_compatible]
  · have hop' : op ∈ ([">", "<", ">=", "<=", "==", "!="] : List String) := by
      simpa using hop
    fin_cases hop' <;> simp [get_expression_type, hl, hr]
  · have hop' : op ∈ (["&&", "||"] : List String) := by simpa using hop
    fin_cases hop' <;> simp [get_expression_type, hl, hr]
  · have hop' : op ∈ (["+", "-", "*", "/", "%"] : List String) := by simpa using hop
    fin_cases hop' <;> simp [get_expression_type, hl, hr]
  · simp [get_expression_type, h]

end Khamseena

namespace Khamseena

/-- C8 witness: the undefined-variable case of the theorem at a concrete
input, and the arithmetic cascade at `x + 1` from the fresh state. -/
theorem C8_any_propagation_witness :
    get_expression_type (Expr.Variable "x") init_state =
      ("ANY", add_error init_state "Undefined variable 'x'") ∧
    get_expression_type
        (Expr.BinaryOp (Expr.Variable "x") "+" (Expr.Literal "1" "INTEGER"))
        init_state =
      ("ANY", add_error (add_error init_state "Undefined variable 'x'")
        ("Invalid operands for '" ++ "+" ++ "': " ++ "ANY" ++ " and " ++ "INTEGER" ++
          " (expected numeric types)")) := by
  constructor
  · exact C8_any_propagation.1 "x" init_state rfl
  · exact C8_any_propagation.2.2.2.2.1 (Expr.Variable "x") (Expr.Literal "1" "INTEGER")
      "+" init_state (add_error init_state "Undefined variable 'x'")
      (add_error init_state "Undefined variable 'x'") "INTEGER" (by decide)
      (C8_any_propagation.1 "x" init_state rfl) rfl

end Khamseena

namespace Khamseena

/-- `get_expression_type` only appends diagnostics: the current scope,
the ancestor chain and the scope counter come through unchanged. -/
theorem get_expression_type_scope_inv (e : Expr) : ∀ st : AState,
    (get_expression_type e st).2.current = st.current ∧
    (get_expression_type e st).2.ancestors = st.ancestors ∧
    (get_expression_type e st).2.scope_counter = st.scope_counter := by
  induction e using Expr.rec (motive_2 := fun _ => True) with
  | Literal v t => intro st; exact ⟨rfl, rfl, rfl⟩
  | Variable n =>
    intro st
    simp only [get_expression_type]
    cases h : st.get_type n <;> simp [h, add_error]
  | BinaryOp l op r ihl ihr =>
    intro st
    obtain ⟨a1, a2, a3⟩ := ihl st
    obtain ⟨b1, b2, b3⟩ := ihr (get_expression_type l st).2
    simp only [get_expression_type]
    split_ifs <;> simp_all [add_error, add_warning]
  | UnaryOp op operand ih =>
    intro st
    obtain ⟨a1, a2, a3⟩ := ih st
    simp only [get_expression_type]
    split_ifs <;> simp_all [add_error, add_warning]
  | FunctionCall n args => intro st; exact ⟨rfl, rfl, rfl⟩
  | nil => trivial
  | cons h t ih1 ih2 => trivial

/-- `define_params` touches only the current scope's symbol list and the
error list. -/
theorem define_params_scope_inv (f : String) (ps : List Parameter) : ∀ st : AState,
    (define_params f ps st).ancestors = st.ancestors := by
  induction ps with
  | nil => intro st; rfl
  | cons p rest ih =>
    intro st
    simp only [define_params]
    cases h : st.current.define p.name
        ⟨match p.param_type with | some t => type_map t | none => "ANY", "parameter"⟩ with
    | ok sc => rw [ih]
    | error e => rw [ih]; rfl

/-- `visit_FunctionCall` only appends diagnostics. -/
theorem visit_FunctionCall_scope_inv (name : String) (st : AState) :
    (visit_FunctionCall name st).ancestors = st.ancestors := by
  simp only [visit_FunctionCall]
  split_ifs
  · cases st.lookup name with
    | none => rfl
    | some sym => by_cases hk : sym.kind ≠ "function" <;> simp [hk, add_error]
  · rfl

/-- Every visitor run succeeds (the `SemanticError` channel is
unreachable: the one unprotected `define` is guarded by the
`lookup_local` pre-check) and restores the ancestor chain it started
with: each `enter_scope` is matched by exactly one `exit_scope`. -/
theorem visit_scope_balance (s : Stmt) : ∀ st : AState, ∃ st',
    visit s st = .ok st' ∧ st'.ancestors = st.ancestors := by
  induction s using Stmt.rec
    (motive_2 := fun os => ∀ st : AState, ∃ st',
      visit_opt os st = .ok st' ∧ st'.ancestors = st.ancestors)
    (motive_3 := fun ss => ∀ st : AState, ∃ st',
      visit_list ss st = .ok st' ∧ st'.ancestors = st.ancestors) with
  | ExpressionStatement e =>
    intro st
    exact ⟨_, rfl, (get_expression_type_scope_inv e st).2.1⟩
  | FunctionDef name params body ih =>
    intro st
    simp only [visit]
    cases hdef : st.current.define name ⟨"FUNCTION", "function"⟩ with
    | error e => exact ⟨_, rfl, rfl⟩
    | ok sc =>
      obtain ⟨st4, h4, a4⟩ := ih (define_params name params
        (enter_scope { st with current := sc } (some ("function_" ++ name))))
      refine ⟨exit_scope st4, ?_, ?_⟩
      · simp only [bind, Except.bind, h4]
        rfl
      · rw [define_params_scope_inv] at a4
        simp only [enter_scope] at a4
        simp only [exit_scope, a4]
  | VarDeclaration vt name init =>
    intro st
    simp only [visit]
    cases hl : (st.current.lookup_local name).isSome with
    | true => simp only [hl, if_true]; exact ⟨_, rfl, rfl⟩
    | false =>
      simp only [hl, Bool.false_eq_true, if_false]
      have hcur : ∀ st2 : AState,
          (match init with
            | some e =>
              let p := get_expression_type e st2
              if ¬ is_compatible (type_map vt) p.1 then
                add_error p.2 ("Type mismatch in variable '" ++ name ++
                  "': Cannot assign " ++ p.1 ++ " to " ++ type_map vt)
              else p.2
            | none => st2) = (match init with
            | some e =>
              let p := get_expression_type e st2
              if ¬ is_compatible (type_map vt) p.1 then
                add_error p.2 ("Type mismatch in variable '" ++ name ++
                  "': Cannot assign " ++ p.1 ++ " to " ++ type_map vt)
              else p.2
            | none => st2) := fun _ => rfl
      cases init with
      | none =>
        simp only [Scope.define, hl, Bool.false_eq_true, if_false]
        exact ⟨_, rfl, rfl⟩
      | some e =>
        obtain ⟨c1, c2, c3⟩ := get_expression_type_scope_inv e st
        cases hc : is_compatible (type_map vt) (get_expression_type e st).1 with
        | true =>
          simp only [hc, not_true, if_neg, ite_false, ite_true, not_false_iff]
          simp only [Scope.define, c1, hl, Bool.false_eq_true, if_false]
          exact ⟨_, rfl, c2⟩
        | false =>
          simp only [hc, Bool.false_eq_true, not_false_iff, if_true]
          simp only [Scope.define, add_error, c1, hl, Bool.false_eq_true, if_false]
          exact ⟨_, rfl, c2⟩
  | Assignment name value =>
    intro st
    obtain ⟨c1, c2, c3⟩ := get_expression_type_scope_inv value st
    simp only [visit]
    split_ifs <;> exact ⟨_, rfl, by first | rfl | exact c2⟩
  | PrintStatement e =>
    intro st
    exact ⟨_, rfl, (get_expression_type_scope_inv e st).2.1⟩
  | IfStatement cond t e iht ihe =>
    intro st
    obtain ⟨c1, c2, c3⟩ := get_expression_type_scope_inv cond st
    simp only [visit]
    by_cases hw : (["BOOLEAN", "ANY"].contains (get_expression_type cond st).1) = true
    · simp only [hw, not_true, if_neg, not_false_iff, ite_false]
      obtain ⟨st2, h2, a2⟩ := iht (get_expression_type cond st).2
      cases e with
      | none =>
        refine ⟨st2, ?_, by rw [a2, c2]⟩
        simp only [bind, Except.bind, h2]
        rfl
      | some es =>
        obtain ⟨st3, h3, a3⟩ := ihe st2
        refine ⟨st3, ?_, ?_⟩
        · simp only [bind, Except.bind, h2]
          simpa [visit_opt] using h3
        · rw [a3, a2, c2]
    · simp only [hw, Bool.false_eq_true, not_false_iff, if_true]
      obtain ⟨st2, h2, a2⟩ := iht (add_warning (get_expression_type cond st).2
        ("Condition in 'taste' statement should be BOOLEAN, got " ++
          (get_expression_type cond st).1))
      cases e with
      | none =>
        refine ⟨st2, ?_, by rw [a2]; exact c2⟩
        simp only [bind, Except.bind, h2]
        rfl
      | some es =>
        obtain ⟨st3, h3, a3⟩ := ihe st2
        refine ⟨st3, ?_, ?_⟩
        · simp only [bind, Except.bind, h2]
          simpa [visit_opt] using h3
        · rw [a3, a2]; exact c2
  | WhileStatement cond body ihb =>
    intro st
    obtain ⟨c1, c2, c3⟩ := get_expression_type_scope_inv cond st
    simp only [visit]
    by_cases hw : (["BOOLEAN", "ANY"].contains (get_expression_type cond st).1) = true
    · simp only [hw, not_true, if_neg, not_false_iff, ite_false]
      obtain ⟨st2, h2, a2⟩ := ihb (get_expression_type cond st).2
      exact ⟨st2, h2, by rw [a2, c2]⟩
    · simp only [hw, Bool.false_eq_true, not_false_iff, if_true]
      obtain ⟨st2, h2, a2⟩ := ihb (add_warning (get_expression_type cond st).2
        ("Loop condition in 'stir' statement should be BOOLEAN, got " ++
          (get_expression_type cond st).1))
      exact ⟨st2, h2, by rw [a2]; exact c2⟩
  | ReturnStatement value =>
    intro st
    cases value with
    | none => exact ⟨st, rfl, rfl⟩
    | some e => exact ⟨_, rfl, (get_expression_type_scope_inv e st).2.1⟩
  | Block ss ih =>
    intro st
    simp only [visit]
    obtain ⟨st2, h2, a2⟩ := ih (enter_scope st none)
    refine ⟨exit_scope st2, ?_, ?_⟩
    · simp only [bind, Except.bind, h2]
      rfl
    · have : st2.ancestors = st.current :: st.ancestors := by
        rw [a2]; rfl
      simp only [exit_scope, this]
  | CommentStatement text => intro st; exact ⟨st, rfl, rfl⟩
  | InputStatement e =>
    intro st
    exact ⟨_, rfl, (get_expression_type_scope_inv e st).2.1⟩
  | FetchStatement name => intro st; exact ⟨st, rfl, rfl⟩
  | ExprNode e =>
    intro st
    cases e with
    | FunctionCall n args =>
      exact ⟨_, rfl, visit_FunctionCall_scope_inv n st⟩
    | Literal v t => exact ⟨st, rfl, rfl⟩
    | Variable n => exact ⟨st, rfl, rfl⟩
    | BinaryOp l op r => exact ⟨st, rfl, rfl⟩
    | UnaryOp op x => exact ⟨st, rfl, rfl⟩
  | none => exact ⟨_, rfl, rfl⟩
  | some s ih => exact ih _
  | nil => exact ⟨_, rfl, rfl⟩
  | cons s rest ih1 ih3 =>
    rename_i st
    obtain ⟨st1, h1, a1⟩ := ih1 st
    obtain ⟨st2, h2, a2⟩ := ih3 st1
    refine ⟨st2, ?_, by rw [a2, a1]⟩
    simp only [visit_list, bind, Except.bind, h1, h2]

end Khamseena

namespace Khamseena

/-- `visit_list` composes the per-statement balance. -/
theorem visit_list_scope_balance (ss : List Stmt) : ∀ st : AState, ∃ st',
    visit_list ss st = .ok st' ∧ st'.ancestors = st.ancestors := by
  induction ss with
  | nil => exact fun st => ⟨st, rfl, rfl⟩
  | cons s rest ih =>
    intro st
    obtain ⟨st1, h1, a1⟩ := visit_scope_balance s st
    obtain ⟨st2, h2, a2⟩ := ih st1
    exact ⟨st2, by simp only [visit_list, bind, Except.bind, h1, h2], by rw [a2, a1]⟩

/-- C10: every visitor leaves `current_scope` where it found it — each
`enter_scope` (FunctionDef body, Block) is matched by exactly one
`exit_scope` back to the same ancestor chain, and no `SemanticError`
escapes a visitor; `exit_scope` at the global scope (empty ancestor
chain) is a no-op; and after `analyze` completes the ancestor chain is
empty again, i.e. `current_scope` is the global scope. -/
theorem C10_scope_discipline :
    (∀ (s : Stmt) (st : AState), ∃ st',
      visit s st = .ok st' ∧ st'.ancestors = st.ancestors) ∧
    (∀ st : AState, st.ancestors = [] → exit_scope st = st) ∧
    (∀ prog : Program, (analyze prog).ancestors = []) := by
  refine ⟨fun s st => visit_scope_balance s st, fun st h => ?_, fun prog => ?_⟩
  · simp [exit_scope, h]
  · obtain ⟨st', h, a⟩ := visit_list_scope_balance prog.statements init_state
    simp only [analyze, h]
    rw [a]
    rfl

/-- C10 witness: `exit_scope` at the fresh global state (whose ancestor
chain is empty) is the identity, via the theorem's no-op conjunct. -/
theorem C10_scope_discipline_witness :
    exit_scope init_state = init_state :=
  C10_scope_discipline.2.1 init_state rfl

end Khamseena

namespace Khamseena

/-- Tokens of `count` on line 1 with the rest of the declaration
`x = 1` on line 2 and no terminating `;`. -/
def c6_decl_tokens : List Token :=
  [⟨TokenType.COUNT, "count", 1, 1⟩, ⟨TokenType.IDENTIFIER, "x", 2, 1⟩,
   ⟨TokenType.ASSIGN, "=", 2, 3⟩, ⟨TokenType.INTEGER, "1", 2, 5⟩,
   ⟨TokenType.EOF, "", 2, 6⟩]

/-- Tokens of `fetch` on line 3 with the module name `m` on line 4 and
no terminating `;`. -/
def c6_fetch_tokens : List Token :=
  [⟨TokenType.FETCH, "fetch", 3, 1⟩, ⟨TokenType.IDENTIFIER, "m", 4, 1⟩,
   ⟨TokenType.EOF, "", 4, 2⟩]

/-- C6 counterexample: for a variable declaration whose leading type
keyword sits on line 1 but whose name identifier sits on line 2, the
missing-`;` error is reported at line 2 — the identifier's line, not the
line of the statement's leading token; likewise `fetch` on line 3 with
its module name on line 4 reports line 4. -/
theorem C6_counterexample :
    parse_statement_body 40 ⟨c6_decl_tokens, none⟩ =
      .error (.err ⟨some 2, "Expected ';' after variable declaration"⟩
        ⟨[⟨TokenType.EOF, "", 2, 6⟩], some ⟨TokenType.INTEGER, "1", 2, 5⟩⟩) ∧
    (c6_decl_tokens.head?.map Token.line) = some 1 ∧ (2 : Nat) ≠ 1 ∧
    parse_statement_body 40 ⟨c6_fetch_tokens, none⟩ =
      .error (.err ⟨some 4, "Expected ';' after fetch statement"⟩
        ⟨[⟨TokenType.EOF, "", 4, 2⟩], some ⟨TokenType.IDENTIFIER, "m", 4, 1⟩⟩) ∧
    (c6_fetch_tokens.head?.map Token.line) = some 3 ∧ (4 : Nat) ≠ 3 := by
  refine ⟨rfl, rfl, by decide, rfl, rfl, by decide⟩

end Khamseena

namespace Khamseena

/-- C6 amended: a missing trailing `;` is reported at the line of a
token captured before the expression was parsed — the statement keyword
for print/input/return, the target identifier for assignment, but the
NAME identifier (not the leading type keyword) for declarations and the
module-name identifier (not the `fetch` keyword) for fetch — never at
the token standing where the `;` was sought. -/
theorem C6_semicolon_error_lines :
    (∀ (fuel : Nat) (st st1 : PState) (name_token : Token),
      consume st TokenType.IDENTIFIER "Expected variable name" = .ok (name_token, st1) →
      matchT st1 [TokenType.ASSIGN] = (none, st1) →
      check st1 TokenType.SEMICOLON = false →
      parse_var_declaration (fuel + 1) st =
        .error (.err ⟨some name_token.line, "Expected ';' after variable declaration"⟩ st1)) ∧
    (∀ (fuel : Nat) (st st1 st2 st3 : PState) (name_token tk : Token) (v : Expr),
      consume st TokenType.IDENTIFIER "Expected variable name" = .ok (name_token, st1) →
      matchT st1 [TokenType.ASSIGN] = (some tk, st2) →
      parse_expression fuel st2 = .ok (v, st3) →
      check st3 TokenType.SEMICOLON = false →
      parse_var_declaration (fuel + 1) st =
        .error (.err ⟨some name_token.line, "Expected ';' after variable declaration"⟩ st3)) ∧
    (∀ (fuel : Nat) (st st1 st2 : PState) (prev tk : Token) (v : Expr),
      st.prev = some prev →
      consume st TokenType.ASSIGN "Expected '=' in assignment" = .ok (tk, st1) →
      parse_expression fuel st1 = .ok (v, st2) →
      check st2 TokenType.SEMICOLON = false →
      parse_assignment (fuel + 1) st =
        .error (.err ⟨some prev.line, "Expected ';' after assignment"⟩ st2)) ∧
    (∀ (fuel : Nat) (st st1 : PState) (kw : Token) (v : Expr),
      st.prev = some kw →
      parse_expression fuel st = .ok (v, st1) →
      check st1 TokenType.SEMICOLON = false →
      parse_print (fuel + 1) st =
        .error (.err ⟨some kw.line, "Expected ';' after print statement"⟩ st1)) ∧
    (∀ (fuel : Nat) (st st1 : PState) (kw : Token) (v : Expr),
      st.prev = some kw →
      parse_expression fuel st = .ok (v, st1) →
      check st1 TokenType.SEMICOLON = false →
      parse_input (fuel + 1) st =
        .error (.err ⟨some kw.line, "Expected ';' after input statement"⟩ st1)) ∧
    (∀ (fuel : Nat) (st st1 : PState) (kw : Token) (v : Expr),
      st.prev = some kw →
      check st TokenType.SEMICOLON = false →
      parse_expression fuel st = .ok (v, st1) →
      check st1 TokenType.SEMICOLON = false →
      parse_return (fuel + 1) st =
        .error (.err ⟨some kw.line, "Expected ';' after return statement"⟩ st1)) ∧
    (∀ (st st1 : PState) (name_token : Token),
      consume st TokenType.IDENTIFIER "Expected module name after 'fetch'" =
        .ok (name_token, st1) →
      check st1 TokenType.SEMICOLON = false →
      parse_fetch st =
        .error (.err ⟨some name_token.line, "Expected ';' after fetch statement"⟩ st1)) := by
  refine ⟨?_, ?_, ?_, ?_, ?_, ?_, ?_⟩
  · intro fuel st st1 name_token h1 h2 h3
    simp [parse_var_declaration, h1, h2, h3, bind, Except.bind]
  · intro fuel st st1 st2 st3 name_token tk v h1 h2 h3 h4
    simp [parse_var_declaration, h1, h2, h3, h4, bind, Except.bind, Except.map]
  · intro fuel st st1 st2 prev tk v h0 h1 h2 h3
    simp [parse_assignment, h0, h1, h2, h3, bind, Except.bind]
  · intro fuel st st1 kw v h0 h1 h2
    simp [parse_print, h0, h1, h2, bind, Except.bind]
  · intro fuel st st1 kw v h0 h1 h2
    simp [parse_input, h0, h1, h2, bind, Except.bind]
  · intro fuel st st1 kw v h0 hc h1 h2
    simp [parse_return, h0, hc, h1, h2, bind, Except.bind, Except.map]
  · intro st st1 name_token h1 h2
    simp [parse_fetch, h1, h2, bind, Except.bind]

/-- C6 witness: the print case at the concrete token state
`serve 1 <eof>` (keyword line 7, expression on line 8, no `;`). -/
theorem C6_semicolon_error_lines_witness :
    parse_print 40 ⟨[⟨TokenType.INTEGER, "1", 8, 1⟩, ⟨TokenType.EOF, "", 8, 2⟩],
        some ⟨TokenType.SERVE, "serve", 7, 1⟩⟩ =
      .error (.err ⟨some 7, "Expected ';' after print statement"⟩
        ⟨[⟨TokenType.EOF, "", 8, 2⟩], some ⟨TokenType.INTEGER, "1", 8, 1⟩⟩) :=
  C6_semicolon_error_lines.2.2.2.1 39
    ⟨[⟨TokenType.INTEGER, "1", 8, 1⟩, ⟨TokenType.EOF, "", 8, 2⟩],
      some ⟨TokenType.SERVE, "serve", 7, 1⟩⟩
    ⟨[⟨TokenType.EOF, "", 8, 2⟩], some ⟨TokenType.INTEGER, "1", 8, 1⟩⟩
    ⟨TokenType.SERVE, "serve", 7, 1⟩ (Expr.Literal "1" "INTEGER") rfl rfl rfl

end Khamseena

namespace Khamseena

/-- Tokens of `f(1);`. -/
def c9_call_tokens : List Token :=
  [⟨TokenType.IDENTIFIER, "f", 1, 1⟩, ⟨TokenType.LPAREN, "(", 1, 2⟩,
   ⟨TokenType.INTEGER, "1", 1, 3⟩, ⟨TokenType.RPAREN, ")", 1, 4⟩,
   ⟨TokenType.SEMICOLON, ";", 1, 5⟩, ⟨TokenType.EOF, "", 1, 6⟩]

/-- C9 counterexample: the statement `f(1);` — an expression form that
begins with an identifier — is NOT accepted as an expression statement:
after consuming the identifier the parser demands `;` immediately,
raises "Expected ';' after expression" at the `(`, and the statement is
dropped from the program (`parse` yields an empty statement list). -/
theorem C9_counterexample :
    parse_statement_body 40 ⟨c9_call_tokens, none⟩ =
      .error (.err ⟨some 1, "Expected ';' after expression"⟩
        ⟨c9_call_tokens.drop 1, some ⟨TokenType.IDENTIFIER, "f", 1, 1⟩⟩) ∧
    parse_statement 41 ⟨c9_call_tokens, none⟩ =
      .ok (none, ⟨[⟨TokenType.EOF, "", 1, 6⟩], some ⟨TokenType.SEMICOLON, ";", 1, 5⟩⟩) ∧
    parse c9_call_tokens = .ok ⟨[]⟩ :=
  ⟨rfl, rfl, rfl⟩

/-- From a successful single-type `matchT` on IDENTIFIER: the matched
token was the head, it is an identifier, and it became `previous()`. -/
theorem matchT_ident_some (st : PState) (t : Token) (st1 : PState)
    (h : matchT st [TokenType.IDENTIFIER] = (some t, st1)) :
    st.rest = t :: st1.rest ∧ t.type = TokenType.IDENTIFIER ∧ st1.prev = some t := by
  cases hr : st.rest with
  | nil => simp [matchT, hr] at h
  | cons u ru =>
    by_cases hu : u.type = TokenType.IDENTIFIER
    · simp only [matchT, hr, advance, at_end, hu, TokenType.IDENTIFIER,
        TokenType.EOF] at h
      simp at h
      obtain ⟨h1, h2⟩ := h
      subst h1
      subst h2
      exact ⟨rfl, hu, rfl⟩
    · simp [matchT, hr, hu] at h

/-- `matchT` does not fire when the head token's type is outside the
requested set. -/
theorem matchT_none_of (st : PState) (u : Token) (ru : List Token) (tys : List String)
    (hr : st.rest = u :: ru) (hc : tys.contains u.type = false) :
    matchT st tys = (none, st) := by
  unfold matchT
  rw [hr]
  show (if tys.contains u.type = true then advance st else (none, st)) = (none, st)
  rw [hc]
  simp

end Khamseena

namespace Khamseena

/-- Reduction of the statement dispatch once the leading token is an
identifier: all earlier keyword branches fail and control reaches the
assignment-or-bare-expression fork. -/
theorem parse_statement_body_ident (fuel : Nat) (st st1 : PState) (t : Token)
    (hm : matchT st [TokenType.IDENTIFIER] = (some t, st1)) :
    parse_statement_body (fuel + 1) st =
      (if check st1 TokenType.ASSIGN = true then
        (parse_assignment fuel st1).map (fun p => (some p.1, p.2))
      else do
        let (_, st2) ← consume st1 TokenType.SEMICOLON "Expected ';' after expression"
        return (some (Stmt.ExpressionStatement (Expr.Variable t.value)), st2)) := by
  obtain ⟨hrest, hty, hprev⟩ := matchT_ident_some st t st1 hm
  have e1 := matchT_none_of st t st1.rest [TokenType.FETCH] hrest (by rw [hty]; decide)
  have e2 := matchT_none_of st t st1.rest [TokenType.RECIPE] hrest (by rw [hty]; decide)
  have e3 := matchT_none_of st t st1.rest
    [TokenType.COUNT, TokenType.MEASURE, TokenType.NOTE, TokenType.FLAVOR] hrest
    (by rw [hty]; decide)
  have e4 := matchT_none_of st t st1.rest [TokenType.SERVE] hrest (by rw [hty]; decide)
  have e5 := matchT_none_of st t st1.rest [TokenType.POUR] hrest (by rw [hty]; decide)
  have e6 := matchT_none_of st t st1.rest [TokenType.TASTE] hrest (by rw [hty]; decide)
  have e7 := matchT_none_of st t st1.rest [TokenType.STIR] hrest (by rw [hty]; decide)
  have e8 := matchT_none_of st t st1.rest [TokenType.DELIVER] hrest (by rw [hty]; decide)
  have e9 := matchT_none_of st t st1.rest [TokenType.COMMENT] hrest (by rw [hty]; decide)
  have e10 := matchT_none_of st t st1.rest [TokenType.LBRACE] hrest (by rw [hty]; decide)
  simp only [parse_statement_body, e1, e2, e3, e4, e5, e6, e7, e8, e9, e10, hm]

/-- C9 amended: a statement beginning with an IDENTIFIER becomes an
Assignment when the next token is `=`; otherwise the parser wraps just
the identifier as `Variable(id)` and demands `;` as the IMMEDIATELY
following token, so only a bare identifier is accepted as an expression
statement — any longer expression form starting with an identifier, such
as the call `f(1);`, raises "Expected ';' after expression" (caught: the
statement is dropped and the parser synchronizes). -/
theorem C9_identifier_statements :
    (∀ (fuel : Nat) (st st1 st2 st3 : PState) (t tk semi : Token) (v : Expr)
      (rest3 : List Token),
      matchT st [TokenType.IDENTIFIER] = (some t, st1) →
      check st1 TokenType.ASSIGN = true →
      consume st1 TokenType.ASSIGN "Expected '=' in assignment" = .ok (tk, st2) →
      parse_expression fuel st2 = .ok (v, st3) →
      st3.rest = semi :: rest3 →
      semi.type = TokenType.SEMICOLON →
      parse_statement_body (fuel + 2) st =
        .ok (some (Stmt.Assignment t.value v), ⟨rest3, some semi⟩)) ∧
    (∀ (fuel : Nat) (st st1 : PState) (t semi : Token) (rest2 : List Token),
      matchT st [TokenType.IDENTIFIER] = (some t, st1) →
      check st1 TokenType.ASSIGN = false →
      st1.rest = semi :: rest2 →
      semi.type = TokenType.SEMICOLON →
      parse_statement_body (fuel + 1) st =
        .ok (some (Stmt.ExpressionStatement (Expr.Variable t.value)), ⟨rest2, some semi⟩)) ∧
    (∀ (fuel : Nat) (st st1 : PState) (t : Token),
      matchT st [TokenType.IDENTIFIER] = (some t, st1) →
      check st1 TokenType.ASSIGN = false →
      check st1 TokenType.SEMICOLON = false →
      parse_statement_body (fuel + 1) st =
        .error (parse_error st1 "Expected ';' after expression") ∧
      parse_statement (fuel + 2) st = .ok (none, synchronize st1)) := by
  refine ⟨?_, ?_, ?_⟩
  · intro fuel st st1 st2 st3 t tk semi v rest3 hm hA hcons hexpr hr3 hsty
    obtain ⟨hrest, hty, hprev⟩ := matchT_ident_some st t st1 hm
    rw [parse_statement_body_ident (fuel + 1) st st1 t hm, if_pos hA]
    have hchk : check st3 TokenType.SEMICOLON = true := by simp [check, hr3, hsty]
    have hcons2 : consume st3 TokenType.SEMICOLON "Expected ';' after assignment" =
        .ok (semi, ⟨rest3, some semi⟩) := by
      simp [consume, hr3, hsty]
    simp [parse_assignment, hprev, hcons, hexpr, hchk, hcons2, bind, Except.bind,
      Except.map, pure, Except.pure]
  · intro fuel st st1 t semi rest2 hm hA hr2 hsty
    rw [parse_statement_body_ident fuel st st1 t hm, if_neg (by simp [hA])]
    have hcons : consume st1 TokenType.SEMICOLON "Expected ';' after expression" =
        .ok (semi, ⟨rest2, some semi⟩) := by
      simp [consume, hr2, hsty]
    simp [hcons, bind, Except.bind, pure, Except.pure]
  · intro fuel st st1 t hm hA hS
    have hcons : consume st1 TokenType.SEMICOLON "Expected ';' after expression" =
        .error (parse_error st1 "Expected ';' after expression") := by
      cases hr1 : st1.rest with
      | nil => simp [consume, hr1, parse_error]
      | cons w rw =>
        have hw : (w.type = TokenType.SEMICOLON) = False := by
          simp [check, hr1] at hS
          simp [hS]
        simp [consume, hr1, parse_error, hw]
    have hbody : parse_statement_body (fuel + 1) st =
        .error (parse_error st1 "Expected ';' after expression") := by
      rw [parse_statement_body_ident fuel st st1 t hm, if_neg (by simp [hA])]
      simp [hcons, bind, Except.bind]
    refine ⟨hbody, ?_⟩
    simp only [parse_statement, hbody]
    cases hr1 : st1.rest with
    | nil => simp [parse_error, hr1]
    | cons w rw => simp [parse_error, hr1]

end Khamseena

namespace Khamseena

/-- C9 witness: the bare-identifier case at the concrete tokens `x ;`,
via the theorem's second conjunct. -/
theorem C9_identifier_statements_witness :
    parse_statement_body 40
        ⟨[⟨TokenType.IDENTIFIER, "x", 1, 1⟩, ⟨TokenType.SEMICOLON, ";", 1, 2⟩,
          ⟨TokenType.EOF, "", 1, 3⟩], none⟩ =
      .ok (some (Stmt.ExpressionStatement (Expr.Variable "x")),
        ⟨[⟨TokenType.EOF, "", 1, 3⟩], some ⟨TokenType.SEMICOLON, ";", 1, 2⟩⟩) :=
  C9_identifier_statements.2.1 39
    ⟨[⟨TokenType.IDENTIFIER, "x", 1, 1⟩, ⟨TokenType.SEMICOLON, ";", 1, 2⟩,
      ⟨TokenType.EOF, "", 1, 3⟩], none⟩
    ⟨[⟨TokenType.SEMICOLON, ";", 1, 2⟩, ⟨TokenType.EOF, "", 1, 3⟩],
      some ⟨TokenType.IDENTIFIER, "x", 1, 1⟩⟩
    ⟨TokenType.IDENTIFIER, "x", 1, 1⟩ ⟨TokenType.SEMICOLON, ";", 1, 2⟩
    [⟨TokenType.EOF, "", 1, 3⟩] rfl rfl rfl rfl

end Khamseena

namespace Khamseena

end Khamseena

namespace Khamseena

end Khamseena

namespace Khamseena

/-- Errors raised inside the string-body loop carry the scanner's
position at the offending newline / end-of-input, which is lexically at
or after the loop's starting position (the line strictly grows, or the
line is equal and the column has not decreased). -/
theorem read_string_loop_err (s : List Char) (l c : Nat) (acc : String) :
    ∀ e : LexErr, read_string_loop s l c acc = .error e →
      e.msg = "Unterminated string literal" ∧
      (l < e.line ∨ (l = e.line ∧ c ≤ e.column)) := by
  induction s, l, c, acc using read_string_loop.induct with
  | case1 line col x =>
    intro e h
    rw [read_string_loop.eq_def] at h
    dsimp only at h
    injection h with h
    subst h
    exact ⟨rfl, Or.inr ⟨rfl, le_refl col⟩⟩
  | case2 rest line col acc =>
    intro e h
    rw [read_string_loop.eq_def] at h
    dsimp only at h
    rw [if_pos rfl] at h
    exact Except.noConfusion h
  | case3 rest line col acc h1 =>
    intro e h
    rw [read_string_loop.eq_def] at h
    dsimp only at h
    rw [if_neg h1, if_pos rfl] at h
    injection h with h
    subst h
    exact ⟨rfl, Or.inr ⟨rfl, le_refl col⟩⟩
  | case4 line col acc h1 h2 =>
    intro e h
    rw [read_string_loop.eq_def] at h
    dsimp only at h
    rw [if_neg h1, if_neg h2, if_pos rfl] at h
    injection h with h
    subst h
    exact ⟨rfl, Or.inr ⟨rfl, Nat.le_succ col⟩⟩
  | case5 line col acc rest2 h1 h2 ih =>
    intro e h
    rw [read_string_loop.eq_def] at h
    dsimp only at h
    rw [if_neg h1, if_neg h2, if_pos rfl, if_pos rfl] at h
    obtain ⟨hm, hp⟩ := ih e h
    exact ⟨hm, Or.inl (by omega)⟩
  | case6 line col acc ec rest2 h0 h1 h2 ih =>
    intro e h
    rw [read_string_loop.eq_def] at h
    dsimp only at h
    rw [if_neg h1, if_neg h2, if_pos rfl, if_neg h0] at h
    obtain ⟨hm, hp⟩ := ih e h
    exact ⟨hm, by omega⟩
  | case7 ch rest line col acc h1 h2 h3 ih =>
    intro e h
    rw [read_string_loop.eq_def] at h
    dsimp only at h
    rw [if_neg h1, if_neg h2, if_neg h3] at h
    obtain ⟨hm, hp⟩ := ih e h
    exact ⟨hm, by omega⟩

end Khamseena

namespace Khamseena

/-- C7 counterexample: for the one-character input `"` the opening
quote is scanned at line 1, column 1, but the unterminated-string error
reports (1, 2) — the end-of-input position; for `"ab` followed by a raw
newline the error reports (1, 4) — the newline's position — and in both
cases not the opening quote's (1, 1). (The message is also capitalised
"Unterminated string literal" in the source.) -/
theorem C7_counterexample :
    tokenize ['"'] =
      .error (.err ⟨1, 2, "Unterminated string literal"⟩) ∧
    ¬((1 : Nat) = 1 ∧ (2 : Nat) = 1) ∧
    tokenize ['"', 'a', 'b', '\n'] =
      .error (.err ⟨1, 4, "Unterminated string literal"⟩) ∧
    ¬((1 : Nat) = 1 ∧ (4 : Nat) = 1) :=
  ⟨rfl, by decide, rfl, by decide⟩

/-- C7 amended: an unescaped newline or end-of-input inside a string
literal makes `tokenize` fail with a LexicalError whose message is
"Unterminated string literal" and whose line/column are the scanner's
position at the offending newline or end-of-input — strictly after the
opening quote's position in (line, column) order, never the opening
quote's own position. -/
theorem C7_unterminated_string_position :
    (∀ (afterQuote : List Char) (line col : Nat) (e : LexErr),
      read_string afterQuote line col = .error e →
      e.msg = "Unterminated string literal" ∧
      (line < e.line ∨ (line = e.line ∧ col < e.column))) ∧
    (∀ (fuel : Nat) (rest : List Char) (line col : Nat) (toks : List Token)
      (e : LexErr),
      read_string rest line col = .error e →
      tokenize_loop (fuel + 1) ('"' :: rest) line col toks = .error (.err e)) := by
  constructor
  · intro afterQuote line col e h
    have hl : read_string_loop afterQuote line (col + 1) "" = .error e := by
      simp only [read_string] at h
      cases hr : read_string_loop afterQuote line (col + 1) "" with
      | error e2 => rw [hr] at h; injection h with h; subst h; rfl
      | ok v => rw [hr] at h; obtain ⟨a, b, c2, d⟩ := v; simp at h
    obtain ⟨hm, hp⟩ := read_string_loop_err afterQuote line (col + 1) "" e hl
    exact ⟨hm, by omega⟩
  · intro fuel rest line col toks e h
    simp [tokenize_loop, h, py_isspace]

/-- C7 witness: the theorem's tokenize-level conjunct at the concrete
input `"` (its `read_string` error computed by `rfl`). -/
theorem C7_unterminated_string_position_witness :
    tokenize_loop 2 ['"'] 1 1 [] =
      .error (.err ⟨1, 2, "Unterminated string literal"⟩) :=
  C7_unterminated_string_position.2 1 [] 1 1 []
    ⟨1, 2, "Unterminated string literal"⟩ rfl

end Khamseena

namespace Khamseena

/-- Inputs consisting only of whitespace characters (space, tab,
newline, carriage return) and `#` line comments (which run to a newline
or to the end of the input). -/
inductive WsComments : List Char → Prop where
  | nil : WsComments []
  | ws (ch : Char) (rest : List Char) :
      (ch = ' ' ∨ ch = '\t' ∨ ch = '\n' ∨ ch = '\r') → WsComments rest →
      WsComments (ch :: rest)
  | comment (body : List Char) (rest : List Char) :
      (∀ ch ∈ body, ch ≠ '\n') → WsComments rest →
      WsComments (('#' :: body) ++ ('\n' :: rest))
  | comment_eof (body : List Char) :
      (∀ ch ∈ body, ch ≠ '\n') →
      WsComments ('#' :: body)

/-- A whitespace head cannot start a comment alternative, so the tail of
a whitespace-headed `WsComments` input is again `WsComments`. -/
theorem WsComments_tail (ch : Char) (rest : List Char)
    (h : WsComments (ch :: rest)) (hs : py_isspace ch = true) : WsComments rest := by
  cases h with
  | ws _ _ _ hr => exact hr
  | comment body rest' hb hr => simp [py_isspace] at hs
  | comment_eof body hb => simp [py_isspace] at hs

end Khamseena

namespace Khamseena

/-- `skip_whitespace` only removes characters (and preserves
`WsComments`). -/
theorem skip_whitespace_facts (s : List Char) : ∀ (l c : Nat),
    (skip_whitespace s l c).1.length ≤ s.length ∧
    (WsComments s → WsComments (skip_whitespace s l c).1) := by
  induction s with
  | nil => intro l c; exact ⟨le_refl _, fun _ => WsComments.nil⟩
  | cons ch rest ih =>
    intro l c
    by_cases hs : py_isspace ch = true
    · rw [skip_whitespace, if_pos hs]
      by_cases hn : ch = '\n'
      · rw [if_pos hn]
        obtain ⟨a, b⟩ := ih (l + 1) 1
        exact ⟨le_trans a (Nat.le_succ _),
          fun hw => b (WsComments_tail ch rest hw hs)⟩
      · rw [if_neg hn]
        obtain ⟨a, b⟩ := ih l (c + 1)
        exact ⟨le_trans a (Nat.le_succ _),
          fun hw => b (WsComments_tail ch rest hw hs)⟩
    · rw [skip_whitespace, if_neg hs]
      exact ⟨le_refl _, fun hw => hw⟩

/-- The comment loop stops exactly at the first newline, having consumed
the newline-free prefix. -/
theorem skip_comment_loop_to_newline :
    ∀ (body : List Char) (k : List Char) (col : Nat) (acc : String),
      (∀ ch ∈ body, ch ≠ '\n') →
      skip_comment_loop (body ++ '\n' :: k) col acc =
        (body.foldl String.push acc, '\n' :: k, col + body.length) := by
  intro body
  induction body with
  | nil =>
    intro k col acc _
    rw [List.nil_append, skip_comment_loop, if_pos rfl]
    simp
  | cons ch rest ih =>
    intro k col acc hb
    have hch : ch ≠ '\n' := hb ch (List.mem_cons_self ch rest)
    rw [List.cons_append, skip_comment_loop, if_neg hch,
      ih k (col + 1) (acc.push ch) (fun d hd => hb d (List.mem_cons_of_mem ch hd))]
    simp only [List.foldl_cons, List.length_cons, Prod.mk.injEq]
    refine ⟨trivial, trivial, by omega⟩

/-- The comment loop with no newline in sight consumes everything. -/
theorem skip_comment_loop_to_end :
    ∀ (body : List Char) (col : Nat) (acc : String),
      (∀ ch ∈ body, ch ≠ '\n') →
      skip_comment_loop body col acc =
        (body.foldl String.push acc, [], col + body.length) := by
  intro body
  induction body with
  | nil => intro col acc _; simp [skip_comment_loop]
  | cons ch rest ih =>
    intro col acc hb
    have hch : ch ≠ '\n' := hb ch (List.mem_cons_self ch rest)
    rw [skip_comment_loop, if_neg hch,
      ih (col + 1) (acc.push ch) (fun d hd => hb d (List.mem_cons_of_mem ch hd))]
    simp only [List.foldl_cons, List.length_cons, Prod.mk.injEq]
    refine ⟨trivial, trivial, by omega⟩

end Khamseena

namespace Khamseena

/-- On whitespace-and-comments input the tokenize loop appends only
COMMENT tokens before the final EOF token. -/
theorem tokenize_loop_ws_comments :
    ∀ (n : Nat) (s : List Char), s.length ≤ n → WsComments s →
      ∀ (fuel : Nat), s.length < fuel → ∀ (l c : Nat) (toks : List Token),
      ∃ (cs : List Token) (l2 c2 : Nat),
        tokenize_loop fuel s l c toks =
          .ok (toks ++ cs ++ [⟨TokenType.EOF, "", l2, c2⟩]) ∧
        ∀ t ∈ cs, t.type = TokenType.COMMENT := by
  intro n
  induction n with
  | zero =>
    intro s hle hw fuel hf l c toks
    have hnil : s = [] := List.eq_nil_of_length_eq_zero (Nat.le_zero.mp hle)
    subst hnil
    cases fuel with
    | zero => omega
    | succ f =>
      refine ⟨[], l, c, ?_, by simp⟩
      rw [tokenize_loop.eq_def]
      simp
  | succ n ih =>
    intro s hle hw fuel hf l c toks
    cases hw with
    | nil =>
      cases fuel with
      | zero => omega
      | succ f =>
        refine ⟨[], l, c, ?_, by simp⟩
        rw [tokenize_loop.eq_def]
        simp
    | ws ch rest hch hwr =>
      cases fuel with
      | zero => omega
      | succ f =>
        have hs : py_isspace ch = true := by
          rcases hch with rfl | rfl | rfl | rfl <;> rfl
        rw [tokenize_loop.eq_def]
        dsimp only
        rw [if_pos hs]
        by_cases hn : ch = '\n'
        · have hskip : skip_whitespace (ch :: rest) l c =
              skip_whitespace rest (l + 1) 1 := by
            rw [skip_whitespace, if_pos hs, if_pos hn]
          rw [hskip]
          obtain ⟨hlen, hwc⟩ := skip_whitespace_facts rest (l + 1) 1
          exact ih (skip_whitespace rest (l + 1) 1).1
            (le_trans hlen (by simp at hle; omega))
            (hwc hwr) f (lt_of_le_of_lt hlen (by simp at hf; omega)) _ _ toks
        · have hskip : skip_whitespace (ch :: rest) l c =
              skip_whitespace rest l (c + 1) := by
            rw [skip_whitespace, if_pos hs, if_neg hn]
          rw [hskip]
          obtain ⟨hlen, hwc⟩ := skip_whitespace_facts rest l (c + 1)
          exact ih (skip_whitespace rest l (c + 1)).1
            (le_trans hlen (by simp at hle; omega))
            (hwc hwr) f (lt_of_le_of_lt hlen (by simp at hf; omega)) _ _ toks
    | comment body rest hb hwr =>
      cases fuel with
      | zero => exact absurd hf (by omega)
      | succ f =>
        rw [List.cons_append]
        rw [tokenize_loop.eq_def]
        dsimp only
        rw [if_neg (by decide : ¬ py_isspace '#' = true), if_pos rfl]
        have hb2 : ∀ d ∈ '#' :: body, d ≠ '\n' := by
          intro d hd
          rcases List.mem_cons.mp hd with rfl | hd2
          · decide
          · exact hb d hd2
        have hsc : skip_comment ('#' :: (body ++ '\n' :: rest)) l c =
            (some ⟨TokenType.COMMENT, ('#' :: body).foldl String.push "", l, c⟩,
              rest, l + 1, 1) := by
          simp only [skip_comment]
          rw [← List.cons_append,
            skip_comment_loop_to_newline ('#' :: body) rest c "" hb2]
          simp
        rw [hsc]
        dsimp only
        obtain ⟨cs, l2, c2, hrec, hcs⟩ := ih rest
          (by simp at hle; omega) hwr f (by simp at hf; omega) (l + 1) 1
          (toks ++ [⟨TokenType.COMMENT, ('#' :: body).foldl String.push "", l, c⟩])
        refine ⟨⟨TokenType.COMMENT, ('#' :: body).foldl String.push "", l, c⟩ :: cs,
          l2, c2, ?_, ?_⟩
        · rw [hrec]
          simp
        · intro t ht
          rcases List.mem_cons.mp ht with rfl | ht2
          · rfl
          · exact hcs t ht2
    | comment_eof body hb =>
      cases fuel with
      | zero => exact absurd hf (by omega)
      | succ f =>
        rw [tokenize_loop.eq_def]
        dsimp only
        rw [if_neg (by decide : ¬ py_isspace '#' = true), if_pos rfl]
        have hb2 : ∀ d ∈ '#' :: body, d ≠ '\n' := by
          intro d hd
          rcases List.mem_cons.mp hd with rfl | hd2
          · decide
          · exact hb d hd2
        have hsc : skip_comment ('#' :: body) l c =
            (some ⟨TokenType.COMMENT, ('#' :: body).foldl String.push "", l, c⟩,
              [], l, c + ('#' :: body).length) := by
          simp only [skip_comment]
          rw [skip_comment_loop_to_end ('#' :: body) c "" hb2]
        rw [hsc]
        dsimp only
        obtain ⟨cs, l2, c2, hrec, hcs⟩ := ih []
          (by simp) WsComments.nil f (by simp at hf ⊢; omega) l
          (c + ('#' :: body).length)
          (toks ++ [⟨TokenType.COMMENT, ('#' :: body).foldl String.push "", l, c⟩])
        refine ⟨⟨TokenType.COMMENT, ('#' :: body).foldl String.push "", l, c⟩ :: cs,
          l2, c2, ?_, ?_⟩
        · rw [hrec]
          simp
        · intro t ht
          rcases List.mem_cons.mp ht with rfl | ht2
          · rfl
          · exact hcs t ht2

end Khamseena

namespace Khamseena

/-- `skip_whitespace` consumes an all-whitespace input completely. -/
theorem skip_whitespace_all (s : List Char) :
    ∀ (l c : Nat), (∀ ch ∈ s, py_isspace ch = true) →
      ∃ l2 c2, skip_whitespace s l c = ([], l2, c2) := by
  induction s with
  | nil => intro l c _; exact ⟨l, c, rfl⟩
  | cons ch rest ih =>
    intro l c hall
    have hs : py_isspace ch = true := hall ch (List.mem_cons_self ch rest)
    have hrest : ∀ d ∈ rest, py_isspace d = true :=
      fun d hd => hall d (List.mem_cons_of_mem ch hd)
    by_cases hn : ch = '\n'
    · obtain ⟨l2, c2, h⟩ := ih (l + 1) 1 hrest
      exact ⟨l2, c2, by rw [skip_whitespace, if_pos hs, if_pos hn, h]⟩
    · obtain ⟨l2, c2, h⟩ := ih l (c + 1) hrest
      exact ⟨l2, c2, by rw [skip_whitespace, if_pos hs, if_neg hn, h]⟩

/-- The program `#x` (a single comment, no newline). -/
def c2_comment_input : List Char := ['#', 'x']

/-- C2 counterexample: the input `#x` consists only of a `#` line
comment, yet `tokenize` returns TWO tokens — a COMMENT token and the
EOF token — not exactly one EOF token. -/
theorem C2_counterexample :
    tokenize c2_comment_input =
      .ok [⟨TokenType.COMMENT, "#x", 1, 1⟩, ⟨TokenType.EOF, "", 1, 3⟩] ∧
    (tokenize c2_comment_input).map List.length = .ok 2 ∧ (2 : Nat) ≠ 1 :=
  ⟨rfl, rfl, by decide⟩

/-- C2 amended: on input of only whitespace and `#` comments, `tokenize`
returns zero or more COMMENT tokens (one per comment) followed by
exactly one EOF token; in particular, on whitespace-only input it
returns exactly one EOF token. -/
theorem C2_ws_comment_tokens :
    (∀ s : List Char, WsComments s →
      ∃ (cs : List Token) (l2 c2 : Nat),
        tokenize s = .ok (cs ++ [⟨TokenType.EOF, "", l2, c2⟩]) ∧
        ∀ t ∈ cs, t.type = TokenType.COMMENT) ∧
    (∀ s : List Char, (∀ ch ∈ s, ch = ' ' ∨ ch = '\t' ∨ ch = '\n' ∨ ch = '\r') →
      ∃ (l2 c2 : Nat), tokenize s = .ok [⟨TokenType.EOF, "", l2, c2⟩]) := by
  constructor
  · intro s hw
    obtain ⟨cs, l2, c2, h, hcs⟩ := tokenize_loop_ws_comments s.length s (le_refl _)
      hw (s.length + 1) (Nat.lt_succ_self _) 1 1 []
    exact ⟨cs, l2, c2, by simpa [tokenize] using h, hcs⟩
  · intro s hall
    cases hs : s with
    | nil => exact ⟨1, 1, rfl⟩
    | cons ch rest =>
      subst hs
      have hsp : py_isspace ch = true := by
        rcases hall ch (List.mem_cons_self ch rest) with rfl | rfl | rfl | rfl <;> rfl
      obtain ⟨l2, c2, hskip⟩ := skip_whitespace_all (ch :: rest) 1 1
        (fun d hd => by rcases hall d hd with rfl | rfl | rfl | rfl <;> rfl)
      refine ⟨l2, c2, ?_⟩
      show tokenize_loop ((ch :: rest).length + 1) (ch :: rest) 1 1 [] =
        .ok [⟨TokenType.EOF, "", l2, c2⟩]
      rw [show (ch :: rest).length + 1 = (rest.length + 1) + 1 from by simp]
      rw [tokenize_loop.eq_def]
      dsimp only
      rw [if_pos hsp, hskip]
      rfl

end Khamseena

namespace Khamseena

/-- C2 witness: the theorem applied at the concrete whitespace-and-
comment input `" #x"` and at the whitespace-only input `" \t\n"`. -/
theorem C2_ws_comment_tokens_witness :
    (∃ (cs : List Token) (l2 c2 : Nat),
      tokenize [' ', '#', 'x'] = .ok (cs ++ [⟨TokenType.EOF, "", l2, c2⟩]) ∧
      ∀ t ∈ cs, t.type = TokenType.COMMENT) ∧
    (∃ (l2 c2 : Nat), tokenize [' ', '\t', '\n'] = .ok [⟨TokenType.EOF, "", l2, c2⟩]) :=
  ⟨C2_ws_comment_tokens.1 [' ', '#', 'x']
    (WsComments.ws ' ' ['#', 'x'] (Or.inl rfl)
      (WsComments.comment_eof ['x'] (by decide))),
   C2_ws_comment_tokens.2 [' ', '\t', '\n'] (by decide)⟩

end Khamseena

namespace Khamseena

/-! C1 infrastructure: goodness predicates and shape lemmas. -/

/-- Well-behavedness of a parser result in the failure channel, relative
to a position bound `n`: not fuel exhaustion, and any raised error's
resume state has at most `n` tokens left. -/
def PGoodE {α : Type} (n : Nat) (r : Except PFail α) : Prop :=
  ∀ pf, r = Except.error pf → ∃ e resume, pf = PFail.err e resume ∧ resume.rest.length ≤ n

/-- Well-behavedness of a parser result carrying a state: `PGoodE` plus
the output state has at most `n` tokens left. -/
def PGood {α : Type} (n : Nat) (r : Except PFail (α × PState)) : Prop :=
  PGoodE n r ∧ ∀ (a : α) (st' : PState), r = Except.ok (a, st') → st'.rest.length ≤ n

theorem pgoodE_ok {α : Type} {n : Nat} {a : α} : PGoodE n (Except.ok a) := by
  intro pf h; exact absurd h (by simp)

theorem pgood_ok {α : Type} {n : Nat} {a : α} {st' : PState}
    (h : st'.rest.length ≤ n) : PGood n (Except.ok (a, st')) := by
  refine ⟨pgoodE_ok, ?_⟩
  intro b st'' hb
  cases hb
  exact h

theorem pgoodE_err {α : Type} {n : Nat} {e : ParseErr} {res : PState}
    (h : res.rest.length ≤ n) : PGoodE (α := α) n (Except.error (PFail.err e res)) := by
  intro pf hpf
  cases hpf
  exact ⟨e, res, rfl, h⟩

theorem pgood_err {α : Type} {n : Nat} {e : ParseErr} {res : PState}
    (h : res.rest.length ≤ n) : PGood (α := α) n (Except.error (PFail.err e res)) := by
  refine ⟨pgoodE_err h, ?_⟩
  intro a st' ha
  exact absurd ha (by simp)

theorem pgood_mono {α : Type} {m n : Nat} {r : Except PFail (α × PState)}
    (hmn : m ≤ n) (h : PGood m r) : PGood n r := by
  refine ⟨?_, ?_⟩
  · intro pf hpf
    obtain ⟨e, res, rfl, hres⟩ := h.1 pf hpf
    exact ⟨e, res, rfl, le_trans hres hmn⟩
  · intro a st' ha
    exact le_trans (h.2 a st' ha) hmn

theorem pgood_bind {α β : Type} {n : Nat} {r : Except PFail α}
    {k : α → Except PFail (β × PState)}
    (h1 : PGoodE n r) (h2 : ∀ a, r = Except.ok a → PGood n (k a)) :
    PGood n (bind r k) := by
  cases r with
  | error pf =>
    obtain ⟨e, res, rfl, hres⟩ := h1 pf rfl
    exact pgood_err hres
  | ok a => exact h2 a rfl

theorem pgood_map_some {α : Type} {n : Nat} {r : Except PFail (α × PState)}
    (h : PGood n r) : PGood n (r.map (fun p => (some p.1, p.2))) := by
  cases r with
  | error pf =>
    obtain ⟨e, res, rfl, hres⟩ := h.1 pf rfl
    exact pgood_err hres
  | ok p =>
    obtain ⟨a, st'⟩ := p
    exact pgood_ok (h.2 a st' rfl)

theorem pgood_pure {α : Type} {n : Nat} {a : α} {st' : PState}
    (h : st'.rest.length ≤ n) :
    PGood n (pure (a, st') : Except PFail (α × PState)) :=
  pgood_ok h

/-- `parse_error` always resumes at the state it was raised at. -/
theorem parse_error_shape (st : PState) (msg : String) :
    ∃ e, parse_error st msg = PFail.err e st := by
  unfold parse_error
  cases st.rest with
  | nil => exact ⟨_, rfl⟩
  | cons t ts => exact ⟨_, rfl⟩

theorem pgood_parse_error {α : Type} {n : Nat} {st : PState} {msg : String}
    (h : st.rest.length ≤ n) :
    PGood (α := α) n (Except.error (parse_error st msg)) := by
  obtain ⟨e, he⟩ := parse_error_shape st msg
  rw [he]
  exact pgood_err h

/-- `advance` leaves the state alone at the end, else consumes exactly
one token. -/
theorem advance_shape (st : PState) :
    (at_end st = true ∧ (advance st).2 = st) ∨
    (at_end st = false ∧ (advance st).2.rest.length + 1 = st.rest.length) := by
  by_cases hend : at_end st = true
  · left
    refine ⟨hend, ?_⟩
    unfold advance
    rw [if_pos hend]
  · right
    refine ⟨by simpa using hend, ?_⟩
    unfold advance
    rw [if_neg hend]
    cases hrest : st.rest with
    | nil => exact absurd (by unfold at_end; rw [hrest]) hend
    | cons t ts => simp [hrest]

theorem advance_length (st : PState) :
    (advance st).2.rest.length ≤ st.rest.length := by
  rcases advance_shape st with ⟨_, h⟩ | ⟨_, h⟩
  · rw [h]
  · omega

/-- `matchT` either leaves the state alone (no match) or consumes exactly
one token, provided EOF is not among the requested types. -/
theorem matchT_shape (st : PState) (tys : List String)
    (hEOF : tys.contains TokenType.EOF = false) :
    matchT st tys = (none, st) ∨
    ∃ t st1, matchT st tys = (some t, st1) ∧ st1.rest.length + 1 = st.rest.length := by
  cases hrest : st.rest with
  | nil => left; simp [matchT, hrest]
  | cons t ts =>
    by_cases hc : tys.contains t.type = true
    · right
      have htne : ¬(t.type = TokenType.EOF) := by
        intro he
        rw [he] at hc
        rw [hc] at hEOF
        exact absurd hEOF (by simp)
      have hend : at_end st = false := by
        unfold at_end
        rw [hrest]
        simpa using htne
      refine ⟨t, ⟨ts, some t⟩, ?_, by simp [hrest]⟩
      simp only [matchT, hrest, hc, if_pos]
      unfold advance
      rw [hend]
      simp [hrest]
    · left
      simp only [matchT, hrest, hc]
      simp

/-- `consume` either raises at the entry state or consumes exactly one
token. -/
theorem consume_shape (st : PState) (ty msg : String) :
    (∃ e, consume st ty msg = Except.error (PFail.err e st)) ∨
    ∃ t st1, consume st ty msg = Except.ok (t, st1) ∧
      st1.rest.length + 1 = st.rest.length := by
  cases hrest : st.rest with
  | nil =>
    left
    obtain ⟨e, he⟩ := parse_error_shape st msg
    refine ⟨e, ?_⟩
    simp only [consume, hrest]
    rw [he]
  | cons t ts =>
    by_cases hc : t.type = ty
    · right
      refine ⟨t, ⟨ts, some t⟩, ?_, by simp [hrest]⟩
      simp only [consume, hrest]
      rw [if_pos hc]
    · left
      obtain ⟨e, he⟩ := parse_error_shape st msg
      refine ⟨e, ?_⟩
      simp only [consume, hrest]
      rw [if_neg hc, he]

theorem pgoodE_validate_parentheses {n : Nat} (st : PState)
    (expected context : String) (h : st.rest.length ≤ n) :
    PGoodE n (validate_parentheses st expected context) := by
  unfold validate_parentheses
  by_cases hc : check st expected = true
  · rw [if_pos hc]; exact pgoodE_ok
  · rw [if_neg hc]
    intro pf hpf
    simp only [] at hpf
    obtain ⟨e, he⟩ := parse_error_shape st _
    rw [he] at hpf
    cases hpf
    exact ⟨e, st, rfl, h⟩

theorem pgoodE_validate_braces {n : Nat} (st : PState)
    (expected context : String) (h : st.rest.length ≤ n) :
    PGoodE n (validate_braces st expected context) := by
  unfold validate_braces
  by_cases hc : check st expected = true
  · rw [if_pos hc]; exact pgoodE_ok
  · rw [if_neg hc]
    intro pf hpf
    simp only [] at hpf
    obtain ⟨e, he⟩ := parse_error_shape st _
    rw [he] at hpf
    cases hpf
    exact ⟨e, st, rfl, h⟩

/-- The `synchronize` loop never adds tokens back. -/
theorem synchronize_loop_length :
    ∀ (rest : List Token) (prev : Option Token),
      (synchronize_loop rest prev).rest.length ≤ rest.length := by
  intro rest
  induction rest with
  | nil => intro prev; simp [synchronize_loop]
  | cons t ts ih =>
    intro prev
    unfold synchronize_loop
    by_cases h1 : t.type = TokenType.EOF
    · rw [if_pos h1]
    · rw [if_neg h1]
      by_cases h2 : prev.any (fun p => p.type = TokenType.SEMICOLON) = true
      · rw [if_pos h2]
      · rw [if_neg h2]
        by_cases h3 : t.type = TokenType.RECIPE ∨ t.type = TokenType.SERVE ∨
            t.type = TokenType.COUNT
        · rw [if_pos h3]
        · rw [if_neg h3]
          have := ih (some t)
          simp only [List.length_cons]
          omega

theorem synchronize_length (st : PState) :
    (synchronize st).rest.length ≤ st.rest.length := by
  unfold synchronize
  exact le_trans (synchronize_loop_length _ _) (advance_length st)

/-- `parse_fetch` is well-behaved and, on success, has consumed at least
the module name. -/
theorem parse_fetch_good (st : PState) :
    PGood st.rest.length (parse_fetch st) ∧
    ∀ a st', parse_fetch st = Except.ok (a, st') →
      st'.rest.length < st.rest.length := by
  unfold parse_fetch
  rcases consume_shape st TokenType.IDENTIFIER "Expected module name after 'fetch'" with
    ⟨e, hc⟩ | ⟨t, st1, hc, hl⟩
  · rw [hc]
    constructor
    · exact pgood_err (le_refl _)
    · intro a st' ha
      exact absurd ha (by simp [bind, Except.bind])
  · rw [hc]
    simp only [bind, Except.bind]
    by_cases hsemi : check st1 TokenType.SEMICOLON = true
    · rw [if_pos hsemi]
      rcases consume_shape st1 TokenType.SEMICOLON "Expected ';' after fetch statement" with
        ⟨e2, hc2⟩ | ⟨t2, st2, hc2, hl2⟩
      · rw [hc2]
        constructor
        · exact pgood_err (by omega)
        · intro a st' ha
          exact absurd ha (by simp [bind, Except.bind])
      · rw [hc2]
        simp only [bind, Except.bind, pure, Except.pure]
        constructor
        · exact pgood_ok (by omega)
        · intro a st' ha
          cases ha
          omega
    · rw [if_neg hsemi]
      constructor
      · exact pgood_err (by omega)
      · intro a st' ha
        exact absurd ha (by simp)

/-- `parse_comment` returns its argument state unchanged. -/
theorem parse_comment_eq (st : PState) :
    parse_comment st =
      Except.ok (Stmt.CommentStatement ((st.prev.map Token.value).getD ""), st) := rfl

/-- `parse_parameter` is well-behaved and, on success, has consumed at
least the parameter name. -/
theorem parse_parameter_good (st : PState) :
    PGood st.rest.length (parse_parameter st) ∧
    ∀ a st', parse_parameter st = Except.ok (a, st') →
      st'.rest.length < st.rest.length := by
  unfold parse_parameter
  rcases matchT_shape st [TokenType.COUNT, TokenType.MEASURE, TokenType.FLAVOR]
      (by decide) with hm | ⟨t, stm, hm, hlm⟩ <;>
    rw [hm] <;> simp only [] <;>
    [rcases consume_shape st TokenType.IDENTIFIER "Expected parameter name" with
      ⟨e, hc⟩ | ⟨t2, st1, hc, hl⟩;
     rcases consume_shape stm TokenType.IDENTIFIER "Expected parameter name" with
      ⟨e, hc⟩ | ⟨t2, st1, hc, hl⟩] <;>
    rw [hc] <;> simp only [bind, Except.bind, pure, Except.pure] <;> constructor
  · exact pgood_err (le_refl _)
  · intro a st' ha
    exact absurd ha (by simp)
  · exact pgood_ok (by omega)
  · intro a st' ha
    cases ha
    omega
  · exact pgood_err (by omega)
  · intro a st' ha
    exact absurd ha (by simp)
  · exact pgood_ok (by omega)
  · intro a st' ha
    cases ha
    omega

/-- Well-behavedness of a `parse_statement_body` result: any raised error
resumes strictly past the entry position (a dispatch token was consumed
first), and a produced statement consumed at least one token unless the
parser was already at the end. -/
def SGood (st : PState) (r : Except PFail (Option Stmt × PState)) : Prop :=
  (∀ pf, r = Except.error pf →
    ∃ e res, pf = PFail.err e res ∧ res.rest.length < st.rest.length) ∧
  (∀ a st', r = Except.ok (a, st') → st'.rest.length ≤ st.rest.length ∧
    (at_end st = false → st'.rest.length < st.rest.length))

/-- A dispatch branch that consumed a token and then ran a well-behaved
sub-parser is `SGood`. -/
theorem sgood_of_pgood_lt {st st1 : PState} {r : Except PFail (Stmt × PState)}
    (hl : st1.rest.length < st.rest.length) (h : PGood st1.rest.length r) :
    SGood st (r.map (fun p => (some p.1, p.2))) := by
  cases r with
  | error pf =>
    obtain ⟨e, res, rfl, hres⟩ := h.1 pf rfl
    constructor
    · intro pf' hpf'
      simp only [Except.map] at hpf'
      cases hpf'
      exact ⟨e, res, rfl, by omega⟩
    · intro a st' ha
      exact absurd ha (by simp [Except.map])
  | ok p =>
    obtain ⟨a, st'⟩ := p
    have := h.2 a st' rfl
    constructor
    · intro pf' hpf'
      exact absurd hpf' (by simp [Except.map])
    · intro b st'' hb
      simp only [Except.map] at hb
      cases hb
      exact ⟨by omega, fun _ => by omega⟩

/-- The joint induction statement of the fuel-sufficiency proof: every
parser function behaves when given fuel exceeding 32 times the remaining
token count plus the function's rank in the call graph. -/
structure FuelGood (fuel : Nat) : Prop where
  primary : ∀ st, 32 * st.rest.length + 0 < fuel →
    PGood st.rest.length (parse_primary fuel st)
  call_args : ∀ st acc, 32 * st.rest.length + 1 < fuel →
    PGood st.rest.length (parse_call_args fuel st acc)
  call : ∀ st, 32 * st.rest.length + 2 < fuel →
    PGood st.rest.length (parse_call fuel st)
  unary : ∀ st, 32 * st.rest.length + 3 < fuel →
    PGood st.rest.length (parse_unary fuel st)
  factor_loop : ∀ st e, 32 * st.rest.length + 4 < fuel →
    PGood st.rest.length (parse_factor_loop fuel st e)
  factor : ∀ st, 32 * st.rest.length + 5 < fuel →
    PGood st.rest.length (parse_factor fuel st)
  term_loop : ∀ st e, 32 * st.rest.length + 6 < fuel →
    PGood st.rest.length (parse_term_loop fuel st e)
  term : ∀ st, 32 * st.rest.length + 7 < fuel →
    PGood st.rest.length (parse_term fuel st)
  comparison_loop : ∀ st e, 32 * st.rest.length + 8 < fuel →
    PGood st.rest.length (parse_comparison_loop fuel st e)
  comparison : ∀ st, 32 * st.rest.length + 9 < fuel →
    PGood st.rest.length (parse_comparison fuel st)
  equality_loop : ∀ st e, 32 * st.rest.length + 10 < fuel →
    PGood st.rest.length (parse_equality_loop fuel st e)
  equality : ∀ st, 32 * st.rest.length + 11 < fuel →
    PGood st.rest.length (parse_equality fuel st)
  and_loop : ∀ st e, 32 * st.rest.length + 12 < fuel →
    PGood st.rest.length (parse_and_loop fuel st e)
  andE : ∀ st, 32 * st.rest.length + 13 < fuel →
    PGood st.rest.length (parse_and fuel st)
  or_loop : ∀ st e, 32 * st.rest.length + 14 < fuel →
    PGood st.rest.length (parse_or_loop fuel st e)
  orE : ∀ st, 32 * st.rest.length + 15 < fuel →
    PGood st.rest.length (parse_or fuel st)
  expression : ∀ st, 32 * st.rest.length + 16 < fuel →
    PGood st.rest.length (parse_expression fuel st)
  var_decl : ∀ st, 32 * st.rest.length + 17 < fuel →
    PGood st.rest.length (parse_var_declaration fuel st)
  assignment : ∀ st, 32 * st.rest.length + 17 < fuel →
    PGood st.rest.length (parse_assignment fuel st)
  printS : ∀ st, 32 * st.rest.length + 17 < fuel →
    PGood st.rest.length (parse_print fuel st)
  inputS : ∀ st, 32 * st.rest.length + 17 < fuel →
    PGood st.rest.length (parse_input fuel st)
  returnS : ∀ st, 32 * st.rest.length + 17 < fuel →
    PGood st.rest.length (parse_return fuel st)
  ifS : ∀ st, 32 * st.rest.length + 17 < fuel →
    PGood st.rest.length (parse_if fuel st)
  whileS : ∀ st, 32 * st.rest.length + 17 < fuel →
    PGood st.rest.length (parse_while fuel st)
  params_loop : ∀ st acc, 32 * st.rest.length + 17 < fuel →
    PGood st.rest.length (parse_params_loop fuel st acc)
  functionS : ∀ st, 32 * st.rest.length + 17 < fuel →
    PGood st.rest.length (parse_function fuel st)
  body : ∀ st, 32 * st.rest.length + 18 < fuel →
    SGood st (parse_statement_body fuel st)
  stmt : ∀ st, 32 * st.rest.length + 19 < fuel →
    ∃ a st', parse_statement fuel st = Except.ok (a, st') ∧
      st'.rest.length ≤ st.rest.length ∧
      (at_end st = false → st'.rest.length < st.rest.length)
  block_loop : ∀ st acc, 32 * st.rest.length + 20 < fuel →
    ∃ stmts st', parse_block_loop fuel st acc = Except.ok (stmts, st') ∧
      st'.rest.length ≤ st.rest.length
  stmts_loop : ∀ st acc, 32 * st.rest.length + 20 < fuel →
    ∃ stmts st', parse_statements_loop fuel st acc = Except.ok (stmts, st')
  block : ∀ st, 32 * st.rest.length + 21 < fuel →
    PGood st.rest.length (parse_block fuel st)

theorem pgoodE_mono {α : Type} {m n : Nat} {r : Except PFail α}
    (hmn : m ≤ n) (h : PGoodE m r) : PGoodE n r := by
  intro pf hpf
  obtain ⟨e, res, rfl, hres⟩ := h pf hpf
  exact ⟨e, res, rfl, le_trans hres hmn⟩

theorem pgoodE_consume {n : Nat} {st : PState} (ty msg : String)
    (h : st.rest.length ≤ n) : PGoodE n (consume st ty msg) := by
  rcases consume_shape st ty msg with ⟨e, hc⟩ | ⟨t, st1, hc, hl⟩ <;> rw [hc]
  · exact pgoodE_err h
  · exact pgoodE_ok

theorem consume_ok_len {st : PState} {ty msg : String} {t : Token} {st1 : PState}
    (h : consume st ty msg = Except.ok (t, st1)) :
    st1.rest.length + 1 = st.rest.length := by
  rcases consume_shape st ty msg with ⟨e, hc⟩ | ⟨t2, st2, hc, hl⟩ <;> rw [hc] at h
  · exact absurd h (by simp)
  · cases h
    exact hl

theorem fg_primary (g : Nat) (IH : FuelGood g) :
    ∀ st, 32 * st.rest.length + 0 < g + 1 →
      PGood st.rest.length (parse_primary (g + 1) st) := by
  intro st hb
  rw [parse_primary.eq_def]
  dsimp only
  rcases matchT_shape st [TokenType.INTEGER] (by decide) with hm1 | ⟨t1, s1, hm1, hl1⟩
  · rw [hm1]
    rcases matchT_shape st [TokenType.FLOAT] (by decide) with hm2 | ⟨t2, s2, hm2, hl2⟩
    · rw [hm2]
      rcases matchT_shape st [TokenType.STRING] (by decide) with hm3 | ⟨t3, s3, hm3, hl3⟩
      · rw [hm3]
        rcases matchT_shape st [TokenType.SWEET] (by decide) with hm4 | ⟨t4, s4, hm4, hl4⟩
        · rw [hm4]
          rcases matchT_shape st [TokenType.SOUR] (by decide) with hm5 | ⟨t5, s5, hm5, hl5⟩
          · rw [hm5]
            rcases matchT_shape st [TokenType.IDENTIFIER] (by decide) with
              hm6 | ⟨t6, s6, hm6, hl6⟩
            · rw [hm6]
              rcases matchT_shape st [TokenType.LPAREN] (by decide) with
                hm7 | ⟨t7, s7, hm7, hl7⟩
              · rw [hm7]
                exact pgood_parse_error (le_refl _)
              · rw [hm7]
                refine pgood_bind
                  (pgoodE_mono (by omega) (IH.expression s7 (by omega)).1) ?_
                rintro ⟨e, st2⟩ hok
                dsimp only
                have hl2 : st2.rest.length ≤ s7.rest.length :=
                  (IH.expression s7 (by omega)).2 e st2 hok
                refine pgood_bind (pgoodE_consume _ _ (by omega)) ?_
                rintro ⟨rp, st3⟩ hok2
                dsimp only
                have hl3 := consume_ok_len hok2
                exact pgood_pure (by omega)
            · rw [hm6]
              exact pgood_ok (by omega)
          · rw [hm5]
            exact pgood_ok (by omega)
        · rw [hm4]
          exact pgood_ok (by omega)
      · rw [hm3]
        exact pgood_ok (by omega)
    · rw [hm2]
      exact pgood_ok (by omega)
  · rw [hm1]
    exact pgood_ok (by omega)

theorem fg_call_args (g : Nat) (IH : FuelGood g) :
    ∀ st acc, 32 * st.rest.length + 1 < g + 1 →
      PGood st.rest.length (parse_call_args (g + 1) st acc) := by
  intro st acc hb
  rw [parse_call_args.eq_def]
  dsimp only
  rcases matchT_shape st [TokenType.COMMA] (by decide) with hm | ⟨t, s1, hm, hl⟩
  · rw [hm]
    exact pgood_ok (le_refl _)
  · rw [hm]
    refine pgood_bind (pgoodE_mono (by omega) (IH.expression s1 (by omega)).1) ?_
    rintro ⟨a, st2⟩ hok
    dsimp only
    have hl2 := (IH.expression s1 (by omega)).2 a st2 hok
    exact pgood_mono (by omega) (IH.call_args st2 (acc ++ [a]) (by omega))

theorem fg_call (g : Nat) (IH : FuelGood g) :
    ∀ st, 32 * st.rest.length + 2 < g + 1 →
      PGood st.rest.length (parse_call (g + 1) st) := by
  intro st hb
  rw [parse_call.eq_def]
  dsimp only
  refine pgood_bind (IH.primary st (by omega)).1 ?_
  rintro ⟨expr, st1⟩ hok1
  dsimp only
  have hl1 := (IH.primary st (by omega)).2 expr st1 hok1
  rcases matchT_shape st1 [TokenType.LPAREN] (by decide) with hm | ⟨lp, st2, hm, hl2⟩
  · rw [hm]
    exact pgood_pure (by omega)
  · rw [hm]
    dsimp only
    by_cases hc : check st2 TokenType.RPAREN = true
    · rw [if_pos hc]
      refine pgood_bind pgoodE_ok ?_
      rintro ⟨args, st3⟩ hok3
      cases hok3
      dsimp only
      refine pgood_bind (pgoodE_consume _ _ (by omega)) ?_
      rintro ⟨rp, st4⟩ hok4
      dsimp only
      have hl4 := consume_ok_len hok4
      cases expr <;> dsimp only <;>
        first
          | exact pgood_pure (by omega)
          | exact pgood_parse_error (by omega)
    · rw [if_neg hc]
      cases hre : parse_expression g st2 with
      | error pf =>
        obtain ⟨e2, res, rfl, hres⟩ := (IH.expression st2 (by omega)).1 pf hre
        exact pgood_err (by omega)
      | ok p =>
        obtain ⟨a, st'⟩ := p
        have hl' := (IH.expression st2 (by omega)).2 a st' hre
        refine pgood_bind pgoodE_ok ?_
        rintro ⟨a2, stx⟩ hok
        cases hok
        dsimp only
        have Hca := IH.call_args st' [a] (by omega)
        refine pgood_bind (pgoodE_mono (by omega) Hca.1) ?_
        rintro ⟨args, st3⟩ hok3
        dsimp only
        have hl3 := Hca.2 args st3 hok3
        refine pgood_bind (pgoodE_consume _ _ (by omega)) ?_
        rintro ⟨rp, st4⟩ hok4
        dsimp only
        have hl4 := consume_ok_len hok4
        cases expr <;> dsimp only <;>
          first
            | exact pgood_pure (by omega)
            | exact pgood_parse_error (by omega)

theorem fg_unary (g : Nat) (IH : FuelGood g) :
    ∀ st, 32 * st.rest.length + 3 < g + 1 →
      PGood st.rest.length (parse_unary (g + 1) st) := by
  intro st hb
  rw [parse_unary.eq_def]
  dsimp only
  rcases matchT_shape st [TokenType.NOT, TokenType.MINUS] (by decide) with
    hm | ⟨op, s1, hm, hl⟩
  · rw [hm]
    exact IH.call st (by omega)
  · rw [hm]
    refine pgood_bind (pgoodE_mono (by omega) (IH.unary s1 (by omega)).1) ?_
    rintro ⟨right, st2⟩ hok
    dsimp only
    have hl2 := (IH.unary s1 (by omega)).2 right st2 hok
    exact pgood_pure (by omega)

theorem fg_factor_loop (g : Nat) (IH : FuelGood g) :
    ∀ st e, 32 * st.rest.length + 4 < g + 1 →
      PGood st.rest.length (parse_factor_loop (g + 1) st e) := by
  intro st e hb
  rw [parse_factor_loop.eq_def]
  dsimp only
  rcases matchT_shape st [TokenType.MULTIPLY, TokenType.DIVIDE, TokenType.MODULO]
      (by decide) with hm | ⟨op, s1, hm, hl⟩
  · rw [hm]
    exact pgood_ok (le_refl _)
  · rw [hm]
    refine pgood_bind (pgoodE_mono (by omega) (IH.unary s1 (by omega)).1) ?_
    rintro ⟨right, st2⟩ hok
    dsimp only
    have hl2 := (IH.unary s1 (by omega)).2 right st2 hok
    exact pgood_mono (by omega) (IH.factor_loop st2 _ (by omega))

theorem fg_factor (g : Nat) (IH : FuelGood g) :
    ∀ st, 32 * st.rest.length + 5 < g + 1 →
      PGood st.rest.length (parse_factor (g + 1) st) := by
  intro st hb
  rw [parse_factor.eq_def]
  dsimp only
  refine pgood_bind (IH.unary st (by omega)).1 ?_
  rintro ⟨e, st1⟩ hok
  dsimp only
  have hl1 := (IH.unary st (by omega)).2 e st1 hok
  exact pgood_mono (by omega) (IH.factor_loop st1 e (by omega))

theorem fg_term_loop (g : Nat) (IH : FuelGood g) :
    ∀ st e, 32 * st.rest.length + 6 < g + 1 →
      PGood st.rest.length (parse_term_loop (g + 1) st e) := by
  intro st e hb
  rw [parse_term_loop.eq_def]
  dsimp only
  rcases matchT_shape st [TokenType.PLUS, TokenType.MINUS] (by decide) with
    hm | ⟨op, s1, hm, hl⟩
  · rw [hm]
    exact pgood_ok (le_refl _)
  · rw [hm]
    refine pgood_bind (pgoodE_mono (by omega) (IH.factor s1 (by omega)).1) ?_
    rintro ⟨right, st2⟩ hok
    dsimp only
    have hl2 := (IH.factor s1 (by omega)).2 right st2 hok
    exact pgood_mono (by omega) (IH.term_loop st2 _ (by omega))

theorem fg_term (g : Nat) (IH : FuelGood g) :
    ∀ st, 32 * st.rest.length + 7 < g + 1 →
      PGood st.rest.length (parse_term (g + 1) st) := by
  intro st hb
  rw [parse_term.eq_def]
  dsimp only
  refine pgood_bind (IH.factor st (by omega)).1 ?_
  rintro ⟨e, st1⟩ hok
  dsimp only
  have hl1 := (IH.factor st (by omega)).2 e st1 hok
  exact pgood_mono (by omega) (IH.term_loop st1 e (by omega))

theorem fg_comparison_loop (g : Nat) (IH : FuelGood g) :
    ∀ st e, 32 * st.rest.length + 8 < g + 1 →
      PGood st.rest.length (parse_comparison_loop (g + 1) st e) := by
  intro st e hb
  rw [parse_comparison_loop.eq_def]
  dsimp only
  rcases matchT_shape st [TokenType.GREATER, TokenType.LESS, TokenType.GREATER_EQUAL,
      TokenType.LESS_EQUAL] (by decide) with hm | ⟨op, s1, hm, hl⟩
  · rw [hm]
    exact pgood_ok (le_refl _)
  · rw [hm]
    refine pgood_bind (pgoodE_mono (by omega) (IH.term s1 (by omega)).1) ?_
    rintro ⟨right, st2⟩ hok
    dsimp only
    have hl2 := (IH.term s1 (by omega)).2 right st2 hok
    exact pgood_mono (by omega) (IH.comparison_loop st2 _ (by omega))

theorem fg_comparison (g : Nat) (IH : FuelGood g) :
    ∀ st, 32 * st.rest.length + 9 < g + 1 →
      PGood st.rest.length (parse_comparison (g + 1) st) := by
  intro st hb
  rw [parse_comparison.eq_def]
  dsimp only
  refine pgood_bind (IH.term st (by omega)).1 ?_
  rintro ⟨e, st1⟩ hok
  dsimp only
  have hl1 := (IH.term st (by omega)).2 e st1 hok
  exact pgood_mono (by omega) (IH.comparison_loop st1 e (by omega))

theorem fg_equality_loop (g : Nat) (IH : FuelGood g) :
    ∀ st e, 32 * st.rest.length + 10 < g + 1 →
      PGood st.rest.length (parse_equality_loop (g + 1) st e) := by
  intro st e hb
  rw [parse_equality_loop.eq_def]
  dsimp only
  rcases matchT_shape st [TokenType.EQUAL, TokenType.NOT_EQUAL] (by decide) with
    hm | ⟨op, s1, hm, hl⟩
  · rw [hm]
    exact pgood_ok (le_refl _)
  · rw [hm]
    refine pgood_bind (pgoodE_mono (by omega) (IH.comparison s1 (by omega)).1) ?_
    rintro ⟨right, st2⟩ hok
    dsimp only
    have hl2 := (IH.comparison s1 (by omega)).2 right st2 hok
    exact pgood_mono (by omega) (IH.equality_loop st2 _ (by omega))

theorem fg_equality (g : Nat) (IH : FuelGood g) :
    ∀ st, 32 * st.rest.length + 11 < g + 1 →
      PGood st.rest.length (parse_equality (g + 1) st) := by
  intro st hb
  rw [parse_equality.eq_def]
  dsimp only
  refine pgood_bind (IH.comparison st (by omega)).1 ?_
  rintro ⟨e, st1⟩ hok
  dsimp only
  have hl1 := (IH.comparison st (by omega)).2 e st1 hok
  exact pgood_mono (by omega) (IH.equality_loop st1 e (by omega))

theorem fg_and_loop (g : Nat) (IH : FuelGood g) :
    ∀ st e, 32 * st.rest.length + 12 < g + 1 →
      PGood st.rest.length (parse_and_loop (g + 1) st e) := by
  intro st e hb
  rw [parse_and_loop.eq_def]
  dsimp only
  rcases matchT_shape st [TokenType.AND] (by decide) with hm | ⟨op, s1, hm, hl⟩
  · rw [hm]
    exact pgood_ok (le_refl _)
  · rw [hm]
    refine pgood_bind (pgoodE_mono (by omega) (IH.equality s1 (by omega)).1) ?_
    rintro ⟨right, st2⟩ hok
    dsimp only
    have hl2 := (IH.equality s1 (by omega)).2 right st2 hok
    exact pgood_mono (by omega) (IH.and_loop st2 _ (by omega))

theorem fg_and (g : Nat) (IH : FuelGood g) :
    ∀ st, 32 * st.rest.length + 13 < g + 1 →
      PGood st.rest.length (parse_and (g + 1) st) := by
  intro st hb
  rw [parse_and.eq_def]
  dsimp only
  refine pgood_bind (IH.equality st (by omega)).1 ?_
  rintro ⟨e, st1⟩ hok
  dsimp only
  have hl1 := (IH.equality st (by omega)).2 e st1 hok
  exact pgood_mono (by omega) (IH.and_loop st1 e (by omega))

theorem fg_or_loop (g : Nat) (IH : FuelGood g) :
    ∀ st e, 32 * st.rest.length + 14 < g + 1 →
      PGood st.rest.length (parse_or_loop (g + 1) st e) := by
  intro st e hb
  rw [parse_or_loop.eq_def]
  dsimp only
  rcases matchT_shape st [TokenType.OR] (by decide) with hm | ⟨op, s1, hm, hl⟩
  · rw [hm]
    exact pgood_ok (le_refl _)
  · rw [hm]
    refine pgood_bind (pgoodE_mono (by omega) (IH.andE s1 (by omega)).1) ?_
    rintro ⟨right, st2⟩ hok
    dsimp only
    have hl2 := (IH.andE s1 (by omega)).2 right st2 hok
    exact pgood_mono (by omega) (IH.or_loop st2 _ (by omega))

theorem fg_or (g : Nat) (IH : FuelGood g) :
    ∀ st, 32 * st.rest.length + 15 < g + 1 →
      PGood st.rest.length (parse_or (g + 1) st) := by
  intro st hb
  rw [parse_or.eq_def]
  dsimp only
  refine pgood_bind (IH.andE st (by omega)).1 ?_
  rintro ⟨e, st1⟩ hok
  dsimp only
  have hl1 := (IH.andE st (by omega)).2 e st1 hok
  exact pgood_mono (by omega) (IH.or_loop st1 e (by omega))

theorem fg_expression (g : Nat) (IH : FuelGood g) :
    ∀ st, 32 * st.rest.length + 16 < g + 1 →
      PGood st.rest.length (parse_expression (g + 1) st) := by
  intro st hb
  rw [parse_expression.eq_def]
  dsimp only
  exact IH.orE st (by omega)

theorem fg_var_decl (g : Nat) (IH : FuelGood g) :
    ∀ st, 32 * st.rest.length + 17 < g + 1 →
      PGood st.rest.length (parse_var_declaration (g + 1) st) := by
  intro st hb
  rw [parse_var_declaration.eq_def]
  dsimp only
  refine pgood_bind (pgoodE_consume _ _ (le_refl _)) ?_
  rintro ⟨nameTok, st1⟩ hok1
  dsimp only
  have hl1 := consume_ok_len hok1
  rcases matchT_shape st1 [TokenType.ASSIGN] (by decide) with hm | ⟨t, s2, hm, hlm⟩ <;>
    rw [hm] <;> dsimp only
  · refine pgood_bind pgoodE_ok ?_
    rintro ⟨ini, st2⟩ hok2
    cases hok2
    dsimp only
    by_cases hcs : check st1 TokenType.SEMICOLON = true
    · rw [if_pos hcs]
      refine pgood_bind (pgoodE_consume _ _ (by omega)) ?_
      rintro ⟨semi, st3⟩ hok3
      dsimp only
      have hl3 := consume_ok_len hok3
      exact pgood_pure (by omega)
    · rw [if_neg hcs]
      exact pgood_err (by omega)
  · cases hre : parse_expression g s2 with
    | error pf =>
      obtain ⟨e2, res, rfl, hres⟩ := (IH.expression s2 (by omega)).1 pf hre
      exact pgood_err (by omega)
    | ok p =>
      obtain ⟨a, st'⟩ := p
      have hl' := (IH.expression s2 (by omega)).2 a st' hre
      refine pgood_bind pgoodE_ok ?_
      rintro ⟨ini, st2⟩ hok2
      simp only [Except.map] at hok2
      cases hok2
      dsimp only
      by_cases hcs : check st' TokenType.SEMICOLON = true
      · rw [if_pos hcs]
        refine pgood_bind (pgoodE_consume _ _ (by omega)) ?_
        rintro ⟨semi, st3⟩ hok3
        dsimp only
        have hl3 := consume_ok_len hok3
        exact pgood_pure (by omega)
      · rw [if_neg hcs]
        exact pgood_err (by omega)

theorem fg_assignment (g : Nat) (IH : FuelGood g) :
    ∀ st, 32 * st.rest.length + 17 < g + 1 →
      PGood st.rest.length (parse_assignment (g + 1) st) := by
  intro st hb
  rw [parse_assignment.eq_def]
  dsimp only
  refine pgood_bind (pgoodE_consume _ _ (le_refl _)) ?_
  rintro ⟨eqTok, st1⟩ hok1
  dsimp only
  have hl1 := consume_ok_len hok1
  refine pgood_bind (pgoodE_mono (by omega) (IH.expression st1 (by omega)).1) ?_
  rintro ⟨v, st2⟩ hok2
  dsimp only
  have hl2 := (IH.expression st1 (by omega)).2 v st2 hok2
  by_cases hcs : check st2 TokenType.SEMICOLON = true
  · rw [if_pos hcs]
    refine pgood_bind (pgoodE_consume _ _ (by omega)) ?_
    rintro ⟨semi, st3⟩ hok3
    dsimp only
    have hl3 := consume_ok_len hok3
    exact pgood_pure (by omega)
  · rw [if_neg hcs]
    exact pgood_err (by omega)

theorem fg_print (g : Nat) (IH : FuelGood g) :
    ∀ st, 32 * st.rest.length + 17 < g + 1 →
      PGood st.rest.length (parse_print (g + 1) st) := by
  intro st hb
  rw [parse_print.eq_def]
  dsimp only
  refine pgood_bind (IH.expression st (by omega)).1 ?_
  rintro ⟨expr, st1⟩ hok1
  dsimp only
  have hl1 := (IH.expression st (by omega)).2 expr st1 hok1
  by_cases hcs : check st1 TokenType.SEMICOLON = true
  · rw [if_pos hcs]
    refine pgood_bind (pgoodE_consume _ _ (by omega)) ?_
    rintro ⟨semi, st2⟩ hok2
    dsimp only
    have hl2 := consume_ok_len hok2
    exact pgood_pure (by omega)
  · rw [if_neg hcs]
    exact pgood_err (by omega)

theorem fg_input (g : Nat) (IH : FuelGood g) :
    ∀ st, 32 * st.rest.length + 17 < g + 1 →
      PGood st.rest.length (parse_input (g + 1) st) := by
  intro st hb
  rw [parse_input.eq_def]
  dsimp only
  refine pgood_bind (IH.expression st (by omega)).1 ?_
  rintro ⟨expr, st1⟩ hok1
  dsimp only
  have hl1 := (IH.expression st (by omega)).2 expr st1 hok1
  by_cases hcs : check st1 TokenType.SEMICOLON = true
  · rw [if_pos hcs]
    refine pgood_bind (pgoodE_consume _ _ (by omega)) ?_
    rintro ⟨semi, st2⟩ hok2
    dsimp only
    have hl2 := consume_ok_len hok2
    exact pgood_pure (by omega)
  · rw [if_neg hcs]
    exact pgood_err (by omega)

theorem fg_return (g : Nat) (IH : FuelGood g) :
    ∀ st, 32 * st.rest.length + 17 < g + 1 →
      PGood st.rest.length (parse_return (g + 1) st) := by
  intro st hb
  rw [parse_return.eq_def]
  dsimp only
  by_cases hc0 : check st TokenType.SEMICOLON = true
  · rw [if_pos hc0]
    refine pgood_bind pgoodE_ok ?_
    rintro ⟨v, st1⟩ hok1
    cases hok1
    dsimp only
    by_cases hcs : check st TokenType.SEMICOLON = true
    · rw [if_pos hcs]
      refine pgood_bind (pgoodE_consume _ _ (le_refl _)) ?_
      rintro ⟨semi, st2⟩ hok2
      dsimp only
      have hl2 := consume_ok_len hok2
      exact pgood_pure (by omega)
    · rw [if_neg hcs]
      exact pgood_err (le_refl _)
  · rw [if_neg hc0]
    cases hre : parse_expression g st with
    | error pf =>
      obtain ⟨e2, res, rfl, hres⟩ := (IH.expression st (by omega)).1 pf hre
      exact pgood_err (by omega)
    | ok p =>
      obtain ⟨a, st'⟩ := p
      have hl' := (IH.expression st (by omega)).2 a st' hre
      refine pgood_bind pgoodE_ok ?_
      rintro ⟨v, st1⟩ hok1
      simp only [Except.map] at hok1
      cases hok1
      dsimp only
      by_cases hcs : check st' TokenType.SEMICOLON = true
      · rw [if_pos hcs]
        refine pgood_bind (pgoodE_consume _ _ (by omega)) ?_
        rintro ⟨semi, st2⟩ hok2
        dsimp only
        have hl2 := consume_ok_len hok2
        exact pgood_pure (by omega)
      · rw [if_neg hcs]
        exact pgood_err (by omega)

theorem fg_if (g : Nat) (IH : FuelGood g) :
    ∀ st, 32 * st.rest.length + 17 < g + 1 →
      PGood st.rest.length (parse_if (g + 1) st) := by
  intro st hb
  rw [parse_if.eq_def]
  dsimp only
  refine pgood_bind (pgoodE_validate_parentheses st _ _ (le_refl _)) ?_
  intro u hu
  refine pgood_bind (pgoodE_consume _ _ (le_refl _)) ?_
  rintro ⟨lp, st1⟩ hok1
  dsimp only
  have hl1 := consume_ok_len hok1
  refine pgood_bind (pgoodE_mono (by omega) (IH.expression st1 (by omega)).1) ?_
  rintro ⟨cond, st2⟩ hok2
  dsimp only
  have hl2 := (IH.expression st1 (by omega)).2 cond st2 hok2
  refine pgood_bind (pgoodE_consume _ _ (by omega)) ?_
  rintro ⟨rp, st3⟩ hok3
  dsimp only
  have hl3 := consume_ok_len hok3
  refine pgood_bind (pgoodE_validate_braces st3 _ _ (by omega)) ?_
  intro u2 hu2
  obtain ⟨thenS, st4, hps, hle4, hlt4⟩ := IH.stmt st3 (by omega)
  rw [hps]
  refine pgood_bind pgoodE_ok ?_
  rintro ⟨thenS2, st4x⟩ hok4
  cases hok4
  dsimp only
  rcases matchT_shape st4 [TokenType.RETASTE] (by decide) with hm | ⟨rt, st5, hm, hlm⟩ <;>
    rw [hm] <;> dsimp only
  · exact pgood_pure (by omega)
  · refine pgood_bind (pgoodE_validate_braces st5 _ _ (by omega)) ?_
    intro u3 hu3
    obtain ⟨elseS, st6, hps2, hle6, hlt6⟩ := IH.stmt st5 (by omega)
    rw [hps2]
    refine pgood_bind pgoodE_ok ?_
    rintro ⟨elseS2, st6x⟩ hok6
    cases hok6
    dsimp only
    exact pgood_pure (by omega)

theorem fg_while (g : Nat) (IH : FuelGood g) :
    ∀ st, 32 * st.rest.length + 17 < g + 1 →
      PGood st.rest.length (parse_while (g + 1) st) := by
  intro st hb
  rw [parse_while.eq_def]
  dsimp only
  refine pgood_bind (pgoodE_validate_parentheses st _ _ (le_refl _)) ?_
  intro u hu
  refine pgood_bind (pgoodE_consume _ _ (le_refl _)) ?_
  rintro ⟨lp, st1⟩ hok1
  dsimp only
  have hl1 := consume_ok_len hok1
  refine pgood_bind (pgoodE_mono (by omega) (IH.expression st1 (by omega)).1) ?_
  rintro ⟨cond, st2⟩ hok2
  dsimp only
  have hl2 := (IH.expression st1 (by omega)).2 cond st2 hok2
  refine pgood_bind (pgoodE_consume _ _ (by omega)) ?_
  rintro ⟨rp, st3⟩ hok3
  dsimp only
  have hl3 := consume_ok_len hok3
  refine pgood_bind (pgoodE_validate_braces st3 _ _ (by omega)) ?_
  intro u2 hu2
  obtain ⟨body, st4, hps, hle4, hlt4⟩ := IH.stmt st3 (by omega)
  rw [hps]
  refine pgood_bind pgoodE_ok ?_
  rintro ⟨body2, st4x⟩ hok4
  cases hok4
  dsimp only
  exact pgood_pure (by omega)

theorem fg_params_loop (g : Nat) (IH : FuelGood g) :
    ∀ st acc, 32 * st.rest.length + 17 < g + 1 →
      PGood st.rest.length (parse_params_loop (g + 1) st acc) := by
  intro st acc hb
  rw [parse_params_loop.eq_def]
  dsimp only
  rcases matchT_shape st [TokenType.COMMA] (by decide) with hm | ⟨t, s1, hm, hl⟩
  · rw [hm]
    exact pgood_ok (le_refl _)
  · rw [hm]
    have Hp := parse_parameter_good s1
    refine pgood_bind (pgoodE_mono (by omega) Hp.1.1) ?_
    rintro ⟨p, st2⟩ hok
    dsimp only
    have hl2 := Hp.2 p st2 hok
    exact pgood_mono (by omega) (IH.params_loop st2 (acc ++ [p]) (by omega))

theorem fg_function (g : Nat) (IH : FuelGood g) :
    ∀ st, 32 * st.rest.length + 17 < g + 1 →
      PGood st.rest.length (parse_function (g + 1) st) := by
  intro st hb
  rw [parse_function.eq_def]
  dsimp only
  refine pgood_bind (pgoodE_consume _ _ (le_refl _)) ?_
  rintro ⟨nameTok, st1⟩ hok1
  dsimp only
  have hl1 := consume_ok_len hok1
  refine pgood_bind (pgoodE_validate_parentheses st1 _ _ (by omega)) ?_
  intro u hu
  refine pgood_bind (pgoodE_consume _ _ (by omega)) ?_
  rintro ⟨lp, st2⟩ hok2
  dsimp only
  have hl2 := consume_ok_len hok2
  by_cases hc : check st2 TokenType.RPAREN = true
  · rw [if_pos hc]
    refine pgood_bind pgoodE_ok ?_
    rintro ⟨params, st3⟩ hok3
    cases hok3
    dsimp only
    refine pgood_bind (pgoodE_consume _ _ (by omega)) ?_
    rintro ⟨rp, st4⟩ hok4
    dsimp only
    have hl4 := consume_ok_len hok4
    refine pgood_bind (pgoodE_validate_braces st4 _ _ (by omega)) ?_
    intro u2 hu2
    refine pgood_bind (pgoodE_consume _ _ (by omega)) ?_
    rintro ⟨lb, st5⟩ hok5
    dsimp only
    have hl5 := consume_ok_len hok5
    refine pgood_bind (pgoodE_mono (by omega) (IH.block st5 (by omega)).1) ?_
    rintro ⟨body, st6⟩ hok6
    dsimp only
    have hl6 := (IH.block st5 (by omega)).2 body st6 hok6
    exact pgood_pure (by omega)
  · rw [if_neg hc]
    cases hpp : parse_parameter st2 with
    | error pf =>
      obtain ⟨e2, res, rfl, hres⟩ := (parse_parameter_good st2).1.1 pf hpp
      exact pgood_err (by omega)
    | ok p =>
      obtain ⟨pa, st'⟩ := p
      have hl' := (parse_parameter_good st2).2 pa st' hpp
      refine pgood_bind pgoodE_ok ?_
      rintro ⟨px, sty⟩ hok
      cases hok
      dsimp only
      have Hpl := IH.params_loop st' [pa] (by omega)
      refine pgood_bind (pgoodE_mono (by omega) Hpl.1) ?_
      rintro ⟨params, st3⟩ hok3
      dsimp only
      have hl3 := Hpl.2 params st3 hok3
      refine pgood_bind (pgoodE_consume _ _ (by omega)) ?_
      rintro ⟨rp, st4⟩ hok4
      dsimp only
      have hl4 := consume_ok_len hok4
      refine pgood_bind (pgoodE_validate_braces st4 _ _ (by omega)) ?_
      intro u2 hu2
      refine pgood_bind (pgoodE_consume _ _ (by omega)) ?_
      rintro ⟨lb, st5⟩ hok5
      dsimp only
      have hl5 := consume_ok_len hok5
      refine pgood_bind (pgoodE_mono (by omega) (IH.block st5 (by omega)).1) ?_
      rintro ⟨body, st6⟩ hok6
      dsimp only
      have hl6 := (IH.block st5 (by omega)).2 body st6 hok6
      exact pgood_pure (by omega)

/-- Transfer of well-behavedness from a strictly advanced position. -/
theorem sgood_of_pgood_lt2 {st st1 : PState} {r : Except PFail (Option Stmt × PState)}
    (hl : st1.rest.length < st.rest.length) (h : PGood st1.rest.length r) :
    SGood st r := by
  constructor
  · intro pf hpf
    obtain ⟨e, res, rfl, hres⟩ := h.1 pf hpf
    exact ⟨e, res, rfl, by omega⟩
  · intro a st' ha
    have := h.2 a st' ha
    exact ⟨by omega, fun _ => by omega⟩

theorem fg_body (g : Nat) (IH : FuelGood g) :
    ∀ st, 32 * st.rest.length + 18 < g + 1 →
      SGood st (parse_statement_body (g + 1) st) := by
  intro st hb
  rw [parse_statement_body.eq_def]
  dsimp only
  rcases matchT_shape st [TokenType.FETCH] (by decide) with hm1 | ⟨t1, s1, hm1, hl1⟩
  swap
  · rw [hm1]
    exact sgood_of_pgood_lt2 (by omega) (pgood_map_some (parse_fetch_good s1).1)
  rw [hm1]
  rcases matchT_shape st [TokenType.RECIPE] (by decide) with hm2 | ⟨t2, s2, hm2, hl2⟩
  swap
  · rw [hm2]
    exact sgood_of_pgood_lt2 (by omega) (pgood_map_some (IH.functionS s2 (by omega)))
  rw [hm2]
  rcases matchT_shape st [TokenType.COUNT, TokenType.MEASURE, TokenType.NOTE,
      TokenType.FLAVOR] (by decide) with hm3 | ⟨t3, s3, hm3, hl3⟩
  swap
  · rw [hm3]
    exact sgood_of_pgood_lt2 (by omega) (pgood_map_some (IH.var_decl s3 (by omega)))
  rw [hm3]
  rcases matchT_shape st [TokenType.SERVE] (by decide) with hm4 | ⟨t4, s4, hm4, hl4⟩
  swap
  · rw [hm4]
    exact sgood_of_pgood_lt2 (by omega) (pgood_map_some (IH.printS s4 (by omega)))
  rw [hm4]
  rcases matchT_shape st [TokenType.POUR] (by decide) with hm5 | ⟨t5, s5, hm5, hl5⟩
  swap
  · rw [hm5]
    exact sgood_of_pgood_lt2 (by omega) (pgood_map_some (IH.inputS s5 (by omega)))
  rw [hm5]
  rcases matchT_shape st [TokenType.TASTE] (by decide) with hm6 | ⟨t6, s6, hm6, hl6⟩
  swap
  · rw [hm6]
    exact sgood_of_pgood_lt2 (by omega) (pgood_map_some (IH.ifS s6 (by omega)))
  rw [hm6]
  rcases matchT_shape st [TokenType.STIR] (by decide) with hm7 | ⟨t7, s7, hm7, hl7⟩
  swap
  · rw [hm7]
    exact sgood_of_pgood_lt2 (by omega) (pgood_map_some (IH.whileS s7 (by omega)))
  rw [hm7]
  rcases matchT_shape st [TokenType.DELIVER] (by decide) with hm8 | ⟨t8, s8, hm8, hl8⟩
  swap
  · rw [hm8]
    exact sgood_of_pgood_lt2 (by omega) (pgood_map_some (IH.returnS s8 (by omega)))
  rw [hm8]
  rcases matchT_shape st [TokenType.COMMENT] (by decide) with hm9 | ⟨t9, s9, hm9, hl9⟩
  swap
  · rw [hm9]
    have Hc : PGood s9.rest.length (parse_comment s9) := by
      rw [parse_comment_eq]
      exact pgood_ok (le_refl _)
    exact sgood_of_pgood_lt2 (by omega) (pgood_map_some Hc)
  rw [hm9]
  rcases matchT_shape st [TokenType.LBRACE] (by decide) with hm10 | ⟨t10, s10, hm10, hl10⟩
  swap
  · rw [hm10]
    exact sgood_of_pgood_lt2 (by omega) (pgood_map_some (IH.block s10 (by omega)))
  rw [hm10]
  rcases matchT_shape st [TokenType.IDENTIFIER] (by decide) with hm11 | ⟨t11, s11, hm11, hl11⟩
  swap
  · rw [hm11]
    dsimp only
    by_cases hca : check s11 TokenType.ASSIGN = true
    · rw [if_pos hca]
      exact sgood_of_pgood_lt2 (by omega) (pgood_map_some (IH.assignment s11 (by omega)))
    · rw [if_neg hca]
      refine @sgood_of_pgood_lt2 st s11 _ (by omega) ?_
      refine pgood_bind (pgoodE_consume _ _ (le_refl _)) ?_
      rintro ⟨semi, st2⟩ hok
      dsimp only
      have hl2 := consume_ok_len hok
      exact pgood_pure (by omega)
  rw [hm11]
  constructor
  · intro pf hpf
    exact absurd hpf (by simp)
  · rintro a st' ha
    cases ha
    rcases advance_shape st with ⟨hend, heq⟩ | ⟨hend, hlen⟩
    · refine ⟨by rw [heq], fun hf => ?_⟩
      rw [hf] at hend
      exact absurd hend (by simp)
    · exact ⟨by omega, fun _ => by omega⟩

theorem fg_stmt (g : Nat) (IH : FuelGood g) :
    ∀ st, 32 * st.rest.length + 19 < g + 1 →
      ∃ a st', parse_statement (g + 1) st = Except.ok (a, st') ∧
        st'.rest.length ≤ st.rest.length ∧
        (at_end st = false → st'.rest.length < st.rest.length) := by
  intro st hb
  rw [parse_statement.eq_def]
  dsimp only
  have HB := IH.body st (by omega)
  cases hbody : parse_statement_body g st with
  | ok r =>
    obtain ⟨a, st'⟩ := r
    obtain ⟨hle, hlt⟩ := HB.2 a st' hbody
    exact ⟨a, st', rfl, hle, hlt⟩
  | error pf =>
    obtain ⟨e, res, rfl, hres⟩ := HB.1 pf hbody
    have hsl := synchronize_length res
    exact ⟨none, synchronize res, rfl, by omega, fun _ => by omega⟩

theorem fg_block_loop (g : Nat) (IH : FuelGood g) :
    ∀ st acc, 32 * st.rest.length + 20 < g + 1 →
      ∃ stmts st', parse_block_loop (g + 1) st acc = Except.ok (stmts, st') ∧
        st'.rest.length ≤ st.rest.length := by
  intro st acc hb
  rw [parse_block_loop.eq_def]
  dsimp only
  by_cases hg : ¬(check st TokenType.RBRACE = true) ∧ ¬(at_end st = true)
  · rw [if_pos hg]
    have hend : at_end st = false := by
      rcases hg with ⟨h1, h2⟩
      simpa using h2
    obtain ⟨a, st1, hps, hle1, hlt1⟩ := IH.stmt st (by omega)
    rw [hps]
    have hlt := hlt1 hend
    cases a with
    | some s =>
      obtain ⟨stmts, st', hbl, hle'⟩ := IH.block_loop st1 (acc ++ [s]) (by omega)
      exact ⟨stmts, st', hbl, by omega⟩
    | none =>
      obtain ⟨stmts, st', hbl, hle'⟩ := IH.block_loop st1 acc (by omega)
      exact ⟨stmts, st', hbl, by omega⟩
  · rw [if_neg hg]
    exact ⟨acc, st, rfl, le_refl _⟩

theorem fg_stmts_loop (g : Nat) (IH : FuelGood g) :
    ∀ st acc, 32 * st.rest.length + 20 < g + 1 →
      ∃ stmts st', parse_statements_loop (g + 1) st acc = Except.ok (stmts, st') := by
  intro st acc hb
  rw [parse_statements_loop.eq_def]
  dsimp only
  by_cases hend : at_end st = true
  · rw [if_pos hend]
    exact ⟨acc, st, rfl⟩
  · rw [if_neg hend]
    obtain ⟨a, st1, hps, hle1, hlt1⟩ := IH.stmt st (by omega)
    rw [hps]
    have hlt := hlt1 (by simpa using hend)
    cases a with
    | some s => exact IH.stmts_loop st1 (acc ++ [s]) (by omega)
    | none => exact IH.stmts_loop st1 acc (by omega)

theorem fg_block (g : Nat) (IH : FuelGood g) :
    ∀ st, 32 * st.rest.length + 21 < g + 1 →
      PGood st.rest.length (parse_block (g + 1) st) := by
  intro st hb
  rw [parse_block.eq_def]
  dsimp only
  obtain ⟨stmts, st1, hbl, hle1⟩ := IH.block_loop st [] (by omega)
  rw [hbl]
  refine pgood_bind pgoodE_ok ?_
  rintro ⟨stmts2, st1x⟩ hok
  cases hok
  dsimp only
  refine pgood_bind (pgoodE_consume _ _ (by omega)) ?_
  rintro ⟨rb, st2⟩ hok2
  dsimp only
  have hl2 := consume_ok_len hok2
  exact pgood_pure (by omega)

theorem fuelgood_zero : FuelGood 0 := by
  constructor <;> (intros; exfalso; omega)

theorem fuelgood_step (g : Nat) (IH : FuelGood g) : FuelGood (g + 1) :=
  ⟨fg_primary g IH, fg_call_args g IH, fg_call g IH, fg_unary g IH, fg_factor_loop g IH,
   fg_factor g IH, fg_term_loop g IH, fg_term g IH, fg_comparison_loop g IH,
   fg_comparison g IH, fg_equality_loop g IH, fg_equality g IH, fg_and_loop g IH,
   fg_and g IH, fg_or_loop g IH, fg_or g IH, fg_expression g IH, fg_var_decl g IH,
   fg_assignment g IH, fg_print g IH, fg_input g IH, fg_return g IH, fg_if g IH,
   fg_while g IH, fg_params_loop g IH, fg_function g IH, fg_body g IH, fg_stmt g IH,
   fg_block_loop g IH, fg_stmts_loop g IH, fg_block g IH⟩

/-- Every parser function behaves at every fuel, given the rank bound. -/
theorem parser_fuel_sufficient : ∀ fuel, FuelGood fuel := by
  intro fuel
  induction fuel with
  | zero => exact fuelgood_zero
  | succ g ih => exact fuelgood_step g ih

/-- `Parser.parse` is total: it never raises, for any token list. -/
theorem parse_total (tokens : List Token) :
    ∃ stmts : List Stmt, parse tokens = Except.ok ⟨stmts⟩ := by
  obtain ⟨stmts, st', h⟩ :=
    (parser_fuel_sufficient (parse_fuel tokens)).stmts_loop ⟨tokens, none⟩ []
      (by show 32 * tokens.length + 20 < 32 * (tokens.length + 1); omega)
  refine ⟨stmts, ?_⟩
  unfold parse
  rw [h]
  rfl

/-- The `try/except` of `Parser.parse_statement`: a raised error is
caught, the statement is dropped, and the parser resumes at
`synchronize` of the raise state. -/
theorem parse_statement_catch (fuel : Nat) (st : PState) (e : ParseErr)
    (resume : PState)
    (h : parse_statement_body fuel st = Except.error (PFail.err e resume)) :
    parse_statement (fuel + 1) st = Except.ok (none, synchronize resume) := by
  rw [parse_statement.eq_def]
  dsimp only
  rw [h]

theorem synchronize_loop_stop (t : Token) (rest : List Token) (prev : Option Token)
    (h : t.type = TokenType.EOF ∨
      prev.any (fun p => p.type = TokenType.SEMICOLON) = true ∨
      t.type = TokenType.RECIPE ∨ t.type = TokenType.SERVE ∨
      t.type = TokenType.COUNT) :
    synchronize_loop (t :: rest) prev = ⟨t :: rest, prev⟩ := by
  simp only [synchronize_loop]
  by_cases h1 : t.type = TokenType.EOF
  · rw [if_pos h1]
  · rw [if_neg h1]
    by_cases h2 : prev.any (fun p => p.type = TokenType.SEMICOLON) = true
    · rw [if_pos h2]
    · rw [if_neg h2]
      have h3 : t.type = TokenType.RECIPE ∨ t.type = TokenType.SERVE ∨
          t.type = TokenType.COUNT := by
        rcases h with h | h | h
        · exact absurd h h1
        · exact absurd h h2
        · exact h
      rw [if_pos h3]

theorem synchronize_loop_skip (t : Token) (rest : List Token) (prev : Option Token)
    (h1 : t.type ≠ TokenType.EOF)
    (h2 : prev.any (fun p => p.type = TokenType.SEMICOLON) = false)
    (h3 : ¬(t.type = TokenType.RECIPE ∨ t.type = TokenType.SERVE ∨
      t.type = TokenType.COUNT)) :
    synchronize_loop (t :: rest) prev = synchronize_loop rest (some t) := by
  simp only [synchronize_loop]
  rw [if_neg h1, if_neg (by simp [h2]), if_neg h3]

/-! ### C1: parse error recovery -/

/-- Token stream of `serve =` (malformed print statement on line 1)
followed by `measure x = 1;` (a well-formed float declaration on
line 2), as the scanner would produce it. -/
def c1_tokens : List Token :=
  [⟨TokenType.SERVE, "serve", 1, 1⟩, ⟨TokenType.ASSIGN, "=", 1, 7⟩,
   ⟨TokenType.MEASURE, "measure", 2, 1⟩, ⟨TokenType.IDENTIFIER, "x", 2, 9⟩,
   ⟨TokenType.ASSIGN, "=", 2, 11⟩, ⟨TokenType.INTEGER, "1", 2, 13⟩,
   ⟨TokenType.SEMICOLON, ";", 2, 14⟩, ⟨TokenType.EOF, "", 2, 15⟩]

/-- C1 counterexample: `synchronize` does NOT stop at every token that
starts a new top-level construct. On `serve = \n measure x = 1;` the
print statement raises "Expected expression" at line 1; recovery then
walks straight over the MEASURE token — although a statement parse
started there succeeds as the declaration `measure x = 1;` — and only
stops after consuming the `;`, so the whole second statement is silently
dropped and `parse` returns an empty program. The only token consumed
before reaching MEASURE is the `=`, not a `;`. -/
theorem C1_counterexample :
    parse c1_tokens = Except.ok ⟨[]⟩ ∧
    parse_statement_body 39 ⟨c1_tokens, none⟩ =
      Except.error (PFail.err ⟨some 1, "Expected expression"⟩
        ⟨c1_tokens.drop 1, some ⟨TokenType.SERVE, "serve", 1, 1⟩⟩) ∧
    synchronize ⟨c1_tokens.drop 1, some ⟨TokenType.SERVE, "serve", 1, 1⟩⟩ =
      ⟨[⟨TokenType.EOF, "", 2, 15⟩], some ⟨TokenType.SEMICOLON, ";", 2, 14⟩⟩ ∧
    ((c1_tokens.drop 2).head? = some ⟨TokenType.MEASURE, "measure", 2, 1⟩ ∧
      (⟨TokenType.MEASURE, "measure", 2, 1⟩ : Token).type = TokenType.MEASURE) ∧
    synchronize_loop (c1_tokens.drop 2) (some ⟨TokenType.ASSIGN, "=", 1, 7⟩) =
      synchronize_loop (c1_tokens.drop 3) (some ⟨TokenType.MEASURE, "measure", 2, 1⟩) ∧
    parse_statement 40 ⟨c1_tokens.drop 2, none⟩ =
      Except.ok (some (Stmt.VarDeclaration "measure" "x"
          (some (Expr.Literal "1" "INTEGER"))),
        ⟨[⟨TokenType.EOF, "", 2, 15⟩], some ⟨TokenType.SEMICOLON, ";", 2, 14⟩⟩) ∧
    ((c1_tokens.get? 1).map Token.type = some TokenType.ASSIGN ∧
      TokenType.ASSIGN ≠ TokenType.SEMICOLON) :=
  ⟨rfl, rfl, rfl, ⟨rfl, rfl⟩, rfl, rfl, ⟨rfl, by decide⟩⟩

/-- C1 amended: `parse` never raises — for every token list it returns a
`Program` (there is no fatal-escape path at all); a `ParseError` raised
inside `parse_statement`'s dispatch is caught there, the offending
statement is dropped (`none`), and the parser resumes from
`synchronize` of the raise state; `synchronize` first skips one token,
then advances until the previously consumed token was a `;` or the
current token is EOF or one of exactly RECIPE, SERVE, COUNT — not every
token that starts a top-level construct (MEASURE, for one, is skipped). -/
theorem C1_parse_recovery :
    (∀ tokens : List Token, ∃ stmts : List Stmt, parse tokens = Except.ok ⟨stmts⟩) ∧
    (∀ (fuel : Nat) (st : PState) (e : ParseErr) (resume : PState),
      parse_statement_body fuel st = Except.error (PFail.err e resume) →
      parse_statement (fuel + 1) st = Except.ok (none, synchronize resume)) ∧
    (∀ st : PState,
      synchronize st = synchronize_loop (advance st).2.rest (advance st).2.prev) ∧
    (∀ prev : Option Token, synchronize_loop [] prev = ⟨[], prev⟩) ∧
    (∀ (t : Token) (rest : List Token) (prev : Option Token),
      (t.type = TokenType.EOF ∨
        prev.any (fun p => p.type = TokenType.SEMICOLON) = true ∨
        t.type = TokenType.RECIPE ∨ t.type = TokenType.SERVE ∨
        t.type = TokenType.COUNT) →
      synchronize_loop (t :: rest) prev = ⟨t :: rest, prev⟩) ∧
    (∀ (t : Token) (rest : List Token) (prev : Option Token),
      t.type ≠ TokenType.EOF →
      prev.any (fun p => p.type = TokenType.SEMICOLON) = false →
      ¬(t.type = TokenType.RECIPE ∨ t.type = TokenType.SERVE ∨
        t.type = TokenType.COUNT) →
      synchronize_loop (t :: rest) prev = synchronize_loop rest (some t)) :=
  ⟨parse_total, parse_statement_catch, fun _ => rfl, fun _ => rfl,
    synchronize_loop_stop, synchronize_loop_skip⟩

theorem C1_parse_recovery_witness :
    (∃ stmts : List Stmt, parse c1_tokens = Except.ok ⟨stmts⟩) ∧
    parse_statement 40 ⟨c1_tokens, none⟩ =
      Except.ok (none,
        synchronize ⟨c1_tokens.drop 1, some ⟨TokenType.SERVE, "serve", 1, 1⟩⟩) ∧
    synchronize_loop [⟨TokenType.RECIPE, "recipe", 3, 1⟩] none =
      ⟨[⟨TokenType.RECIPE, "recipe", 3, 1⟩], none⟩ ∧
    synchronize_loop [⟨TokenType.MEASURE, "measure", 2, 1⟩, ⟨TokenType.EOF, "", 2, 15⟩]
        none =
      synchronize_loop [⟨TokenType.EOF, "", 2, 15⟩]
        (some ⟨TokenType.MEASURE, "measure", 2, 1⟩) := by
  obtain ⟨h1, h2, h3, h4, h5, h6⟩ := C1_parse_recovery
  exact ⟨h1 c1_tokens,
    h2 39 ⟨c1_tokens, none⟩ ⟨some 1, "Expected expression"⟩
      ⟨c1_tokens.drop 1, some ⟨TokenType.SERVE, "serve", 1, 1⟩⟩ (by rfl),
    h5 ⟨TokenType.RECIPE, "recipe", 3, 1⟩ [] none
      (Or.inr (Or.inr (Or.inl (by decide)))),
    h6 ⟨TokenType.MEASURE, "measure", 2, 1⟩ [⟨TokenType.EOF, "", 2, 15⟩] none
      (by decide) (by decide) (by decide)⟩

end Khamseena
